import Mathlib

/-!
Verification development for the JS-glue generation core
(`crates/wasm-bindgen-cli-support/src/js.rs`).

The Rust source accumulates generated JavaScript as strings.  We embed the
generator shallowly: every `globals.push_str(...)` of a runtime-support
routine's body is modelled as appending one `Fragment` identifying that
routine (the routine's concrete text is a function of its name and of the
`debug`/`nodejs` configuration, so the name identifies the pushed text);
every emitted statement of a generated function body is modelled by a
`Stmt` constructor carrying exactly the data interpolated into the source's
`format!` template; every ABI-level actual argument string is modelled by a
constructor of `PassedArg`/`AbiArg` recording the interpolated index.
Rust `panic!`/failed `assert!`/`unimplemented!`/indexing panics are
modelled by `Option` results (`none` = generation aborts).
-/

set_option maxHeartbeats 1000000

namespace WasmBindgen

/-- One chunk of text pushed onto the accumulated `globals` string:
either the body of a demand-materialized runtime-support routine/global
(`expose_*`), or one `export const <name> = ...;` binding emitted by the
`bind` closure inside `Context::finalize`. -/
inductive Fragment where
  | expose (name : String)
  | bindGlobal (name : String)
  deriving DecidableEq, Repr

/-- One entry of the binary module's import section
(`parity_wasm` `ImportEntry`): a module name, a field name, and the
remaining attributes (the external kind), which the rewriter never
touches, collapsed into one opaque `kind` payload. -/
structure ImportEntry where
  module_ : String
  field : String
  kind : Nat
  deriving DecidableEq, Repr

/-- One entry of the binary module's export section: a field name plus the
remaining attributes (internal index / kind) collapsed into `kind`. -/
structure ExportEntry where
  field : String
  kind : Nat
  deriving DecidableEq, Repr

/-- A section of the binary module: an import section, an export section,
or any other section (opaque payload, never touched by the rewriter). -/
inductive WSection where
  | imp (entries : List ImportEntry)
  | exp (entries : List ExportEntry)
  | other (payload : Nat)
  deriving DecidableEq, Repr

/-- The structured binary module (`parity_wasm::elements::Module`),
reduced to its section list. -/
structure WModule where
  sections : List WSection
  deriving DecidableEq, Repr

/-- `Module::import_section()`: the first import section, if any. -/
def WModule.importSection (m : WModule) : Option (List ImportEntry) :=
  m.sections.findSome? fun s =>
    match s with
    | .imp es => some es
    | _ => none

/-- The generator state (`Context` in `js.rs`), with the accumulated
strings replaced by fragment/statement lists and the hash sets by lists
used as sets.  `debug`/`nodejs` are the two configuration flags read from
`config : &Bindgen`. -/
structure Context where
  globals : List Fragment
  importsJs : List String
  exposed_globals : List String
  required_internal_exports : List String
  imports_to_rewrite : List String
  custom_type_names : List (Nat × String)
  imported_names : List String
  module : WModule
  debug : Bool
  nodejs : Bool
  deriving DecidableEq, Repr

/-- `HashSet::insert`-style insertion into a list used as a set. -/
def setInsert (s : String) (l : List String) : List String :=
  if s ∈ l then l else s :: l

/-- Append one fragment to the accumulated globals
(one `self.globals.push_str(...)`). -/
def pushG (fr : Fragment) (c : Context) : Context :=
  { c with globals := c.globals ++ [fr] }

/-- `self.required_internal_exports.insert(s)`. -/
def reqInsert (s : String) (c : Context) : Context :=
  { c with required_internal_exports := setInsert s c.required_internal_exports }

/-- The guard shared by every `expose_*` function:
`if !self.exposed_globals.insert(name) { return }` — if the name is
already present do nothing, otherwise record it and run the body. -/
def guarded (name : String) (body : Context → Context) (c : Context) : Context :=
  if name ∈ c.exposed_globals then c
  else body { c with exposed_globals := name :: c.exposed_globals }

/-- `Context::expose_global_stack`. -/
def expose_global_stack : Context → Context :=
  guarded "stack" (pushG (.expose "stack"))

/-- `Context::expose_global_slab`. -/
def expose_global_slab : Context → Context :=
  guarded "slab" (pushG (.expose "slab"))

/-- `Context::expose_global_slab_next`. -/
def expose_global_slab_next : Context → Context :=
  guarded "slab_next" (pushG (.expose "slab_next"))

/-- `Context::expose_drop_ref`: requires the slab and its free-list head,
then emits `dropRef`. -/
def expose_drop_ref : Context → Context :=
  guarded "drop_ref" fun c =>
    pushG (.expose "drop_ref") (expose_global_slab_next (expose_global_slab c))

/-- `Context::expose_get_object`: requires the stack and the slab, then
emits `getObject`. -/
def expose_get_object : Context → Context :=
  guarded "get_object" fun c =>
    pushG (.expose "get_object") (expose_global_slab (expose_global_stack c))

/-- `Context::expose_check_token`. -/
def expose_check_token : Context → Context :=
  guarded "check_token" (pushG (.expose "check_token"))

/-- `Context::expose_assert_num`. -/
def expose_assert_num : Context → Context :=
  guarded "assert_num" (pushG (.expose "assert_num"))

/-- `Context::expose_assert_bool`. -/
def expose_assert_bool : Context → Context :=
  guarded "assert_bool" (pushG (.expose "assert_bool"))

/-- `Context::expose_text_encoder`. -/
def expose_text_encoder : Context → Context :=
  guarded "text_encoder" (pushG (.expose "text_encoder"))

/-- `Context::expose_text_decoder`. -/
def expose_text_decoder : Context → Context :=
  guarded "text_decoder" (pushG (.expose "text_decoder"))

/-- `Context::expose_uint8_memory`. -/
def expose_uint8_memory : Context → Context :=
  guarded "uint8_memory" (pushG (.expose "uint8_memory"))

/-- `Context::expose_uint32_memory`. -/
def expose_uint32_memory : Context → Context :=
  guarded "uint32_memory" (pushG (.expose "uint32_memory"))

/-- `Context::expose_pass_string_to_wasm`: records the
`__wbindgen_malloc` internal export, then emits the buffer-based codec
under node configuration, or materializes the text encoder and the byte
view and emits the encoder-based codec otherwise. -/
def expose_pass_string_to_wasm : Context → Context :=
  guarded "pass_string_to_wasm" fun c =>
    let c := reqInsert "__wbindgen_malloc" c
    if c.nodejs then pushG (.expose "pass_string_to_wasm") c
    else pushG (.expose "pass_string_to_wasm")
      (expose_uint8_memory (expose_text_encoder c))

/-- `Context::expose_get_string_from_wasm`. -/
def expose_get_string_from_wasm : Context → Context :=
  guarded "get_string_from_wasm" fun c =>
    if c.nodejs then pushG (.expose "get_string_from_wasm") c
    else pushG (.expose "get_string_from_wasm")
      (expose_uint8_memory (expose_text_decoder c))

/-- `Context::expose_assert_class`. -/
def expose_assert_class : Context → Context :=
  guarded "assert_class" (pushG (.expose "assert_class"))

/-- `Context::expose_borrowed_objects`: requires the stack, then emits
`addBorrowedObject`. -/
def expose_borrowed_objects : Context → Context :=
  guarded "borrowed_objects" fun c =>
    pushG (.expose "borrowed_objects") (expose_global_stack c)

/-- `Context::expose_take_object`: requires `getObject` and `dropRef`,
then emits `takeObject`. -/
def expose_take_object : Context → Context :=
  guarded "take_object" fun c =>
    pushG (.expose "take_object") (expose_drop_ref (expose_get_object c))

/-- `Context::expose_add_heap_object`: requires the slab and its free-list
head, then emits `addHeapObject`. -/
def expose_add_heap_object : Context → Context :=
  guarded "add_heap_object" fun c =>
    pushG (.expose "add_heap_object") (expose_global_slab_next (expose_global_slab c))

/-! ### Type tags and function descriptors

Modelled from the spec: the tag constants live in the `shared` crate, which
is not under the sources here (only `js.rs` is); the spec describes a closed
vocabulary of tags (`Number`, `Boolean`, `String`, `BorrowedString`,
`HostOwned`/`JS_OWNED`, `HostBorrowed`/`JS_REF`) plus interned custom-type
ids carrying a reserved low flag bit.  We model tags as the `char` code
points they are in the source, as `Nat`; the builtin constants are chosen
as distinct concrete values, disjoint from the custom-id space the spec
requires ("the two must never collide with a third meaning").
`TYPE_CUSTOM_REF_FLAG = 1` is forced by `js.rs` itself
(`add_custom_type_names` derives the by-ref id as `val | 1` and
`generate_function` tests `(custom as u32) & TYPE_CUSTOM_REF_FLAG != 0`). -/

def TYPE_NUMBER : Nat := 0x100
def TYPE_BOOLEAN : Nat := 0x101
def TYPE_STRING : Nat := 0x102
def TYPE_BORROWED_STR : Nat := 0x103
def TYPE_JS_OWNED : Nat := 0x104
def TYPE_JS_REF : Nat := 0x105
def TYPE_CUSTOM_REF_FLAG : Nat := 1

/-- `shared::Function`: a name, the ordered argument tags, and an optional
return tag. -/
structure FunctionDesc where
  name : String
  arguments : List Nat
  ret : Option Nat
  deriving DecidableEq, Repr

/-- Association-list lookup standing in for the
`custom_type_names : HashMap<char, String>` read `self.custom_type_names[&custom]`. -/
def mlookup (k : Nat) : List (Nat × String) → Option String
  | [] => none
  | (k', v) :: rest => if k' = k then some v else mlookup k rest

/-- One statement emitted into a generated export function, one
constructor per `format!` template in `SubContext::generate_function`
(the constructor's index argument is the `{i}` interpolated there):
`assertNum i` ~ `_assertNum(arg_i);`;
`assertBoolean i` ~ `_assertBoolean(arg_i);`;
`passString i` ~ `const [ptr_i, len_i] = passStringToWasm(arg_i);`;
`freeString i` ~ `wasm.__wbindgen_free(ptr_i, len_i);`;
`addHeap i` ~ `const idx_i = addHeapObject(arg_i);`;
`addBorrowed i` ~ `const idx_i = addBorrowedObject(arg_i);`;
`stackPop` ~ `stack.pop();`;
`assertClass i s` ~ `_assertClass(arg_i, s);`;
`consumePtr i` ~ `const ptr_i = arg_i.ptr; arg_i.ptr = 0;`;
`importStrDecode i` ~ `let arg_i = getStringFromWasm(ptr_i, len_i);
wasm.__wbindgen_free(ptr_i, len_i);` (import direction only). -/
inductive Stmt where
  | assertNum (i : Nat)
  | assertBoolean (i : Nat)
  | passString (i : Nat)
  | freeString (i : Nat)
  | addHeap (i : Nat)
  | addBorrowed (i : Nat)
  | stackPop
  | assertClass (i : Nat) (klass : String)
  | consumePtr (i : Nat)
  | importStrDecode (i : Nat)
  deriving DecidableEq, Repr

/-- One ABI-level actual argument string pushed by the `pass` closure of
`generate_function`: `thisPtr` ~ `this.ptr`; `argRaw i` ~ `arg_i`;
`boolCoerce i` ~ `arg_i ? 1 : 0`; `ptr i` ~ `ptr_i`; `len i` ~ `len_i`;
`idx i` ~ `idx_i`; `argDotPtr i` ~ `arg_i.ptr`; `consumedPtr i` ~ `ptr_i`
(the local bound by `consumePtr i`). -/
inductive PassedArg where
  | thisPtr
  | argRaw (i : Nat)
  | boolCoerce (i : Nat)
  | ptr (i : Nat)
  | len (i : Nat)
  | idx (i : Nat)
  | argDotPtr (i : Nat)
  | consumedPtr (i : Nat)
  deriving DecidableEq, Repr

/-- The return-conversion statement chosen by the `convert_ret` match of
`generate_function`: `ret` ~ `return ret;` (no return tag and `Number`
emit the same text); `retBool` ~ `return ret != 0;`; `takeObject` ~
`return takeObject(ret);`; `boxedStr` ~ the boxed-string
ptr/len/decode/free sequence; `newClass name debug` ~
`return new name(ret)` (with the construction token when `debug`). -/
inductive RetConv where
  | ret
  | retBool
  | takeObject
  | boxedStr
  | newClass (name : String) (debug : Bool)
  deriving DecidableEq, Repr

/-- The shape of the emitted function body: `generate_function` emits the
conversions followed by a bare call when `destructors` is empty, and a
`try { call } finally { destructors }` block otherwise. -/
inductive FnBody where
  | plain (convs : List Stmt) (passed : List PassedArg) (retc : RetConv)
  | tryFinally (convs : List Stmt) (passed : List PassedArg) (retc : RetConv)
      (fin : List Stmt)
  deriving DecidableEq, Repr

/-- The structured content of the `(js, ts)` pair `generate_function`
returns (the TypeScript half, a parallel type string, is omitted). -/
structure GenResult where
  passed_args : List PassedArg
  arg_conversions : List Stmt
  destructors : List Stmt
  convert_ret : RetConv
  body : FnBody
  deriving DecidableEq, Repr

/-- Per-argument step of `generate_function`'s `for (i, arg)` loop:
returns the updated context, the ABI actuals pushed by `pass`, the
statements appended to `arg_conversions`, and the statements appended to
`destructors`.  `none` models the panics (custom-type registry miss). -/
def processArg (c : Context) (i : Nat) (arg : Nat) :
    Option (Context × List PassedArg × List Stmt × List Stmt) :=
  if arg = TYPE_NUMBER then
    if c.debug then
      some (expose_assert_num c, [.argRaw i], [.assertNum i], [])
    else
      some (c, [.argRaw i], [], [])
  else if arg = TYPE_BOOLEAN then
    if c.debug then
      some (expose_assert_bool c, [.boolCoerce i], [.assertBoolean i], [])
    else
      some (c, [.boolCoerce i], [], [])
  else if arg = TYPE_BORROWED_STR ∨ arg = TYPE_STRING then
    let c := expose_pass_string_to_wasm c
    if arg = TYPE_BORROWED_STR then
      some (reqInsert "__wbindgen_free" c, [.ptr i, .len i], [.passString i],
            [.freeString i])
    else
      some (c, [.ptr i, .len i], [.passString i], [])
  else if arg = TYPE_JS_OWNED then
    some (expose_add_heap_object c, [.idx i], [.addHeap i], [])
  else if arg = TYPE_JS_REF then
    some (expose_borrowed_objects c, [.idx i], [.addBorrowed i], [.stackPop])
  else if arg &&& TYPE_CUSTOM_REF_FLAG ≠ 0 then
    match mlookup arg c.custom_type_names with
    | none => none
    | some s =>
      if c.debug then
        some (expose_assert_class c, [.argDotPtr i], [.assertClass i s], [])
      else
        some (c, [.argDotPtr i], [], [])
  else
    match mlookup arg c.custom_type_names with
    | none => none
    | some s =>
      if c.debug then
        some (expose_assert_class c, [.consumedPtr i],
              [.assertClass i s, .consumePtr i], [])
      else
        some (c, [.consumedPtr i], [.consumePtr i], [])

/-- The whole argument loop, threading the context and concatenating the
per-argument contributions in declared order (the source pushes onto the
accumulated strings; concatenation in iteration order is the same text). -/
def runArgs (c : Context) (i : Nat) :
    List Nat → Option (Context × List PassedArg × List Stmt × List Stmt)
  | [] => some (c, [], [], [])
  | a :: rest => do
    let (c₁, p₁, cv₁, dt₁) ← processArg c i a
    let (c₂, p₂, cv₂, dt₂) ← runArgs c₁ (i + 1) rest
    pure (c₂, p₁ ++ p₂, cv₁ ++ cv₂, dt₁ ++ dt₂)

/-- The `convert_ret` match of `generate_function`.  The two `panic!()`
arms (a borrowed string or borrowed host value in return position, and a
custom id with the by-ref flag bit set) and a registry miss for a custom
id are `none`. -/
def convertRet (c : Context) : Option Nat → Option (RetConv × Context)
  | none => some (.ret, c)
  | some t =>
    if t = TYPE_NUMBER then some (.ret, c)
    else if t = TYPE_BOOLEAN then some (.retBool, c)
    else if t = TYPE_JS_OWNED then some (.takeObject, expose_take_object c)
    else if t = TYPE_STRING then
      let c := expose_get_string_from_wasm c
      let c := reqInsert "__wbindgen_boxed_str_ptr" c
      let c := reqInsert "__wbindgen_boxed_str_len" c
      let c := reqInsert "__wbindgen_boxed_str_free" c
      some (.boxedStr, c)
    else if t = TYPE_JS_REF ∨ t = TYPE_BORROWED_STR then none
    else if t &&& TYPE_CUSTOM_REF_FLAG ≠ 0 then none
    else
      match mlookup t c.custom_type_names with
      | none => none
      | some name => some (.newClass name c.debug, c)

/-- `SubContext::generate_function`: methods receive `this.ptr` as an
implicit leading ABI actual; then the argument loop, the return
conversion, and the body assembled as a bare call or a `try`/`finally`
depending on whether any destructors accumulated. -/
def generateFunction (is_method : Bool) (f : FunctionDesc) (c : Context) :
    Option (GenResult × Context) := do
  let passed0 : List PassedArg := if is_method then [.thisPtr] else []
  let (c, passed, convs, dtors) ← runArgs c 0 f.arguments
  let (rc, c) ← convertRet c f.ret
  let passed := passed0 ++ passed
  let body := if dtors.isEmpty then FnBody.plain convs passed rc
              else FnBody.tryFinally convs passed rc dtors
  pure ({ passed_args := passed, arg_conversions := convs,
          destructors := dtors, convert_ret := rc, body := body }, c)

/-! ### Import codegen (`SubContext::generate_import`) -/

/-- `shared::Import`: originating host module, optional class, the
function descriptor, and the `method` / `js_new` / `catch` flags. -/
structure ImportDesc where
  module : Option String
  class_ : Option String
  function : FunctionDesc
  method : Bool
  js_new : Bool
  catch_ : Bool
  deriving DecidableEq, Repr

/-- One ABI-shaped formal parameter of the synthesized import shim, one
constructor per string pushed onto `abi_args`: `arg i` ~ `arg_i`;
`ptr i`/`len i` ~ `ptr_i`/`len_i`; `wasmretptr` ~ the extra string-return
out-slot; `exnptr` ~ the extra exception out-slot. -/
inductive AbiArg where
  | arg (i : Nat)
  | ptr (i : Nat)
  | len (i : Nat)
  | wasmretptr
  | exnptr
  deriving DecidableEq, Repr

/-- One actual argument of the inner host-side invocation, one
constructor per string pushed onto `invoc_args`: `raw i` ~ `arg_i`;
`boolCast i` ~ `arg_i != 0`; `getString i` ~
`getStringFromWasm(ptr_i, len_i)`; `strVar i` ~ the `arg_i` local bound
by `importStrDecode i`; `takeObj i` ~ `takeObject(arg_i)`;
`getObj i` ~ `getObject(arg_i)`. -/
inductive InvocArg where
  | raw (i : Nat)
  | boolCast (i : Nat)
  | getString (i : Nat)
  | strVar (i : Nat)
  | takeObj (i : Nat)
  | getObj (i : Nat)
  deriving DecidableEq, Repr

/-- How the inner invocation's result is marshalled back, from the
`match import.function.ret` block: `plain` ~ bare invocation (no return
tag); `retNum` ~ `return invoc;`; `retBool` ~ `return invoc ? 1 : 0;`;
`retAddHeap` ~ `return addHeapObject(invoc);`; `retString` ~ the
`passStringToWasm`/`wasmretptr` sequence. -/
inductive ImportRet where
  | plain
  | retNum
  | retBool
  | retAddHeap
  | retString
  deriving DecidableEq, Repr

/-- The structured content of the synthesized import shim. -/
structure GenImport where
  abi_args : List AbiArg
  extra : List Stmt
  invoc_args : List InvocArg
  retKind : ImportRet
  catchWrapped : Bool
  deriving DecidableEq, Repr

/-- Per-argument step of `generate_import`'s loop: the pushed
`invoc_args`, `abi_args` and `extra` statements.  The catch-all
`panic!("unsupported type in import")` is `none`. -/
def importArg (c : Context) (i : Nat) (arg : Nat) :
    Option (Context × List InvocArg × List AbiArg × List Stmt) :=
  if arg = TYPE_NUMBER then
    some (c, [.raw i], [.arg i], [])
  else if arg = TYPE_BOOLEAN then
    some (c, [.boolCast i], [.arg i], [])
  else if arg = TYPE_BORROWED_STR then
    some (expose_get_string_from_wasm c, [.getString i], [.ptr i, .len i], [])
  else if arg = TYPE_STRING then
    let c := expose_get_string_from_wasm c
    some (reqInsert "__wbindgen_free" c, [.strVar i], [.ptr i, .len i],
          [.importStrDecode i])
  else if arg = TYPE_JS_OWNED then
    some (expose_take_object c, [.takeObj i], [.arg i], [])
  else if arg = TYPE_JS_REF then
    some (expose_get_object c, [.getObj i], [.arg i], [])
  else none

/-- The whole import-argument loop, in declared order. -/
def runImportArgs (c : Context) (i : Nat) :
    List Nat → Option (Context × List InvocArg × List AbiArg × List Stmt)
  | [] => some (c, [], [], [])
  | a :: rest => do
    let (c₁, v₁, b₁, e₁) ← importArg c i a
    let (c₂, v₂, b₂, e₂) ← runImportArgs c₁ (i + 1) rest
    pure (c₂, v₁ ++ v₂, b₁ ++ b₂, e₁ ++ e₂)

/-- The `match import.function.ret` block of `generate_import`; returns
the marshalling kind and the extra `wasmretptr` out-slot when the return
is an owned string.  The `_ => unimplemented!()` arm is `none`. -/
def importRet (c : Context) : Option Nat → Option (ImportRet × List AbiArg × Context)
  | none => some (.plain, [], c)
  | some t =>
    if t = TYPE_NUMBER then some (.retNum, [], c)
    else if t = TYPE_BOOLEAN then some (.retBool, [], c)
    else if t = TYPE_JS_OWNED then some (.retAddHeap, [], expose_add_heap_object c)
    else if t = TYPE_STRING then
      let c := expose_pass_string_to_wasm c
      let c := expose_uint32_memory c
      some (.retString, [.wasmretptr], c)
    else none

/-- `SubContext::generate_import` (the emitted-shim structure; the
JS-import line bookkeeping and the mangled shim name, which come from the
`shared` crate, do not affect the shim's ABI shape and are omitted).
When `import.catch` is set the call is wrapped in the `try`/`catch`
template and the `exnptr` out-slot is appended after everything else. -/
def generateImport (imp : ImportDesc) (c : Context) :
    Option (GenImport × Context) := do
  let (c, invoc, abi, extra) ← runImportArgs c 0 imp.function.arguments
  let (rk, abiRet, c) ← importRet c imp.function.ret
  let abi := abi ++ abiRet
  if imp.catch_ then
    let c := expose_uint32_memory c
    let c := expose_add_heap_object c
    pure ({ abi_args := abi ++ [.exnptr], extra := extra, invoc_args := invoc,
            retKind := rk, catchWrapped := true }, c)
  else
    pure ({ abi_args := abi, extra := extra, invoc_args := invoc,
            retKind := rk, catchWrapped := false }, c)

/-! ### Custom-type registration (`Context::add_custom_type_names`) -/

/-- One registration from `program.custom_type_names`: the interned id
(`char` code point, as `Nat`) and the declared class name. -/
structure CustomTypeName where
  descriptor : Nat
  name : String
  deriving DecidableEq, Repr

/-- `assert!(map.insert(k, v).is_none())`: insertion that aborts
(`none`) instead of overwriting an existing mapping. -/
def insertNew (k : Nat) (v : String) (m : List (Nat × String)) :
    Option (List (Nat × String)) :=
  match mlookup k m with
  | some _ => none
  | none => some ((k, v) :: m)

/-- One iteration of the `for custom in program.custom_type_names` loop:
insert the by-value id (asserting it was absent), assert its flag bit is
clear, then insert the derived by-ref id `val | 1` (asserting it was
absent), both mapping to the same name.  (The source converts `val | 1`
back to `char` with `char::from_u32(..).unwrap()`; ids are modelled as
the code points themselves, so that conversion is the identity here.) -/
def addOneCustomType (m : List (Nat × String)) (cu : CustomTypeName) :
    Option (List (Nat × String)) := do
  let m ← insertNew cu.descriptor cu.name m
  if cu.descriptor &&& 1 = 0 then
    insertNew (cu.descriptor ||| 1) cu.name m
  else none

/-- `Context::add_custom_type_names`: the whole loop. -/
def addCustomTypeNames (customs : List CustomTypeName)
    (m : List (Nat × String)) : Option (List (Nat × String)) :=
  match customs with
  | [] => some m
  | cu :: rest => do
    let m ← addOneCustomType m cu
    addCustomTypeNames rest m

/-! ### Module rewriting (`Context::rewrite_imports`,
`Context::unexport_unused_internal_exports`) -/

/-- Rust's `str::starts_with`, over the character list (on UTF-8 strings
the byte-level prefix test `starts_with` performs and the char-level
prefix test coincide; the char list is used because it evaluates). -/
def strStartsWith (s p2 : String) : Bool :=
  s.data.take p2.data.length == p2.data

/-- The per-entry body of `rewrite_imports`' loop: an entry whose field
carries the reserved `__wbindgen` prefix, or whose field is in the
requested rewrite set, gets its module name replaced by
`"./" ++ module_name`; anything else is left untouched.  Only the module
name is assigned; the field and the other attributes are preserved. -/
def rewriteEntry (rset : List String) (module_name : String)
    (e : ImportEntry) : ImportEntry :=
  if strStartsWith e.field "__wbindgen" then
    { e with module_ := "./" ++ module_name }
  else if e.field ∈ rset then
    { e with module_ := "./" ++ module_name }
  else e

/-- `rewrite_imports` visits every section and rewrites the entries of
the import sections, leaving every other section alone. -/
def rewriteSection (rset : List String) (module_name : String) :
    WSection → WSection
  | .imp es => .imp (es.map (rewriteEntry rset module_name))
  | s => s

/-- `Context::rewrite_imports`. -/
def rewriteImports (rset : List String) (module_name : String)
    (m : WModule) : WModule :=
  ⟨m.sections.map (rewriteSection rset module_name)⟩

/-- The `retain` predicate of `unexport_unused_internal_exports`: keep an
export entry unless its field has the `__wbindgen` prefix and is not in
the required set. -/
def keepExport (required : List String) (e : ExportEntry) : Bool :=
  !(strStartsWith e.field "__wbindgen") || required.contains e.field

/-- `unexport_unused_internal_exports` visits every section and filters
the entries of export sections, leaving every other section alone. -/
def pruneSection (required : List String) : WSection → WSection
  | .exp es => .exp (es.filter (keepExport required))
  | s => s

/-- `Context::unexport_unused_internal_exports`. -/
def unexportUnused (required : List String) (m : WModule) : WModule :=
  ⟨m.sections.map (pruneSection required)⟩

/-! ### Finalization's binding pass (`Context::finalize`) -/

/-- `Context::wasm_import_needed`: `false` when the module has no import
section, otherwise whether any entry imports exactly `name` from the
module `"env"`. -/
def wasmImportNeeded (m : WModule) (name : String) : Bool :=
  match m.importSection with
  | none => false
  | some entries => entries.any fun i => i.module_ == "env" && i.field == name

/-- The `expose_*` prerequisites each `bind(name, ...)` closure in
`Context::finalize` requests before its `export const` line, in source
order. -/
def bindDeps (name : String) : Context → Context :=
  if name = "__wbindgen_object_clone_ref" then
    fun c => expose_get_object (expose_add_heap_object c)
  else if name = "__wbindgen_object_drop_ref" then expose_drop_ref
  else if name = "__wbindgen_string_new" then
    fun c => expose_get_string_from_wasm (expose_add_heap_object c)
  else if name = "__wbindgen_number_new" then expose_add_heap_object
  else if name = "__wbindgen_number_get" then
    fun c => expose_uint8_memory (expose_get_object c)
  else if name = "__wbindgen_undefined_new" then expose_add_heap_object
  else if name = "__wbindgen_null_new" then expose_add_heap_object
  else if name = "__wbindgen_is_null" then expose_get_object
  else if name = "__wbindgen_is_undefined" then expose_get_object
  else if name = "__wbindgen_boolean_new" then expose_add_heap_object
  else if name = "__wbindgen_boolean_get" then expose_get_object
  else if name = "__wbindgen_symbol_new" then
    fun c => expose_add_heap_object (expose_get_string_from_wasm c)
  else if name = "__wbindgen_is_symbol" then expose_get_object
  else if name = "__wbindgen_throw" then expose_get_string_from_wasm
  else if name = "__wbindgen_string_get" then
    fun c => expose_uint32_memory (expose_get_object (expose_pass_string_to_wasm c))
  else id

/-- The `bind` closure itself: when the generic import slot for `name` is
actually present in the module (`wasm_import_needed`), materialize the
prerequisites and append the `export const name = ...;` global; otherwise
do nothing. -/
def bindOne (c : Context) (name : String) : Context :=
  if wasmImportNeeded c.module name then
    let c := bindDeps name c
    pushG (.bindGlobal name) c
  else c

/-- The fifteen `bind(...)` calls of `Context::finalize`, in source
order. -/
def bindNames : List String :=
  ["__wbindgen_object_clone_ref", "__wbindgen_object_drop_ref",
   "__wbindgen_string_new", "__wbindgen_number_new", "__wbindgen_number_get",
   "__wbindgen_undefined_new", "__wbindgen_null_new", "__wbindgen_is_null",
   "__wbindgen_is_undefined", "__wbindgen_boolean_new",
   "__wbindgen_boolean_get", "__wbindgen_symbol_new", "__wbindgen_is_symbol",
   "__wbindgen_throw", "__wbindgen_string_get"]

/-- The binding pass of `Context::finalize`: the `bind` calls in
sequence. -/
def finalizeBinds (c : Context) : Context :=
  bindNames.foldl bindOne c

/-! ### Runtime semantics of the emitted support routines

The generator only *emits* the handle/slab protocol; the definitions
below give the JS texts it emits (`addHeapObject`, `getObject`,
`dropRef`, `cloneRef`, the `try`/`catch` import wrapper, the
`try`/`finally` export wrapper) their meaning over an explicit runtime
state.  Situations where the emitted debug build throws
(`'corrupt slab'`) — and the non-debug build would read garbage — are
modelled as `none`. -/

/-- A host value crossing the boundary. -/
inductive JsVal where
  | num (n : Int)
  | bool (b : Bool)
  | str (s : String)
  | undef
  | null
  | obj (id : Nat)
  deriving DecidableEq, Repr

/-- One slab cell: a free-list link (`slab[i]` holding a number) or an
occupied cell `{ obj, cnt }`. -/
inductive SlabCell where
  | link (next : Nat)
  | full (obj : JsVal) (cnt : Nat)
  deriving DecidableEq, Repr

/-- The runtime state the emitted globals declare: `let slab = [];`,
`let slab_next = 0;`, `let stack = [];`. -/
structure RtState where
  slab : List SlabCell
  slab_next : Nat
  stack : List JsVal
  deriving DecidableEq, Repr

/-- The emitted `addHeapObject(obj)`: extend the slab with a fresh
free-list link when `slab_next` runs off the end, allocate the cell at
`slab_next` (reading its link as the new `slab_next`), store
`{ obj, cnt: 1 }`, and return the even handle `idx << 1`. -/
def addHeapObject (obj : JsVal) (s : RtState) : Option (Nat × RtState) :=
  let s₁ := if s.slab_next = s.slab.length
            then { s with slab := s.slab ++ [.link (s.slab.length + 1)] }
            else s
  match s₁.slab.get? s₁.slab_next with
  | some (.link next) =>
    some (s₁.slab_next * 2,
          { s₁ with slab := s₁.slab.set s₁.slab_next (.full obj 1),
                    slab_next := next })
  | _ => none

/-- The emitted `getObject(idx)`: odd handles index the stack region,
even handles read the slab cell's `obj` field. -/
def getObject (idx : Nat) (s : RtState) : Option JsVal :=
  if idx % 2 = 1 then s.stack.get? (idx / 2)
  else
    match s.slab.get? (idx / 2) with
    | some (.full obj _) => some obj
    | _ => none

/-- The emitted `dropRef(idx)`: decrement the cell's refcount; on
reaching zero, link the cell onto the free list and point `slab_next` at
it.  (Odd handles throw in the debug build.) -/
def dropRef (idx : Nat) (s : RtState) : Option RtState :=
  if idx % 2 = 1 then none
  else
    match s.slab.get? (idx / 2) with
    | some (.full obj cnt) =>
      if cnt - 1 > 0 then
        some { s with slab := s.slab.set (idx / 2) (.full obj (cnt - 1)) }
      else
        some { s with slab := s.slab.set (idx / 2) (.link s.slab_next),
                      slab_next := idx / 2 }
    | _ => none

/-- The emitted `__wbindgen_object_clone_ref` body: an odd (stack) handle
is promoted — `addHeapObject(getObject(idx))`; an even (heap) handle has
its cell's refcount bumped in place and is returned unchanged. -/
def cloneRef (idx : Nat) (s : RtState) : Option (Nat × RtState) :=
  if idx % 2 = 1 then
    match getObject idx s with
    | some v => addHeapObject v s
    | none => none
  else
    match s.slab.get? (idx / 2) with
    | some (.full obj cnt) =>
      some (idx, { s with slab := s.slab.set (idx / 2) (.full obj (cnt + 1)) })
    | _ => none

/-- The `try { invoc } catch (e) { view[exnptr/4] = 1;
view[exnptr/4+1] = addHeapObject(e); }` wrapper `generate_import` emits
when `catch` is requested, over an abstract `Uint32` view and the slab
state: a successful target call leaves both untouched; a throwing one
returns normally (the throw is not propagated) after writing status word
`1` and the fresh handle at the next word. -/
def catchInvoke (exnptr : Nat) (view : Nat → Nat) (s : RtState)
    (res : Except JsVal JsVal) : Option ((Nat → Nat) × RtState) :=
  match res with
  | .ok _ => some (view, s)
  | .error e =>
    match addHeapObject e s with
    | some (h, s') =>
      some (Function.update (Function.update view (exnptr / 4) 1)
              (exnptr / 4 + 1) h, s')
    | none => none

/-- Whether the underlying wasm call returned or threw. -/
inductive Outcome where
  | success
  | thrown
  deriving DecidableEq, Repr

/-- The statements a generated export body runs after the wasm call, as a
function of the call's outcome: a plain body runs no cleanup (on a throw
nothing after the call runs; on success only the return conversion runs);
a `try`/`finally` body runs its `finally` block exactly once on both
paths. -/
def postCallCleanup : FnBody → Outcome → List Stmt
  | .plain _ _ _, _ => []
  | .tryFinally _ _ _ fin, _ => fin

/-- The meaning of the emitted `return ret != 0;` (the `Boolean` return
conversion): a strict JS boolean, `true` exactly when the ABI word is
nonzero. -/
def boolRetDenote (n : Int) : Bool :=
  n != 0

/-! ### Auxiliary definitions used by the theorems -/

/-- The post-call cleanup sequence actually scheduled for an argument
list, in declared order: freeing the transferred buffer of a
borrowed-string argument, and popping the borrowed-stack entry of a
borrowed host-value argument.  (Characterization of the `destructors`
accumulator of `generate_function`; no other argument kind contributes.) -/
def cleanupSchedule : Nat → List Nat → List Stmt
  | _, [] => []
  | i, a :: rest =>
    (if a = TYPE_BORROWED_STR then [Stmt.freeString i]
     else if a = TYPE_JS_REF then [Stmt.stackPop]
     else []) ++ cleanupSchedule (i + 1) rest

/-- A runtime-support materializer is memoized and idempotent: a second
request is a no-op, a request for an already-recorded name leaves the
state untouched, and a fresh request appends the routine's body exactly
once. -/
def MemoizedExposer (name : String) (F : Context → Context) : Prop :=
  ∀ c, F (F c) = F c
    ∧ (name ∈ c.exposed_globals → F c = c)
    ∧ (name ∉ c.exposed_globals →
        ((F c).globals).count (Fragment.expose name)
          = (c.globals).count (Fragment.expose name) + 1)

/-- Structural invariant of every `expose_*` function: it only appends
`expose` fragments whose names are drawn from `names`, never touches the
module, and never removes a recorded name. -/
def OnlyExposes (names : List String) (F : Context → Context) : Prop :=
  ∀ c, (∃ l, (F c).globals = c.globals ++ l
          ∧ ∀ fr ∈ l, ∃ nm ∈ names, fr = Fragment.expose nm)
    ∧ (F c).module = c.module
    ∧ (∀ s, s ∈ c.exposed_globals → s ∈ (F c).exposed_globals)

/-- An empty generation context (no registry, release configuration,
empty module). -/
def cxDefault : Context :=
  { globals := [], importsJs := [], exposed_globals := [],
    required_internal_exports := [], imports_to_rewrite := [],
    custom_type_names := [], imported_names := [], module := ⟨[]⟩,
    debug := false, nodejs := false }

/-- A context whose registry holds one custom type `Foo` under the
by-value id `1024` and the derived by-ref id `1025`. -/
def cxFoo : Context :=
  { cxDefault with custom_type_names := [(1024, "Foo"), (1025, "Foo")] }

/-! ## Helper lemmas -/

theorem addHeapObject_spec {v : JsVal} {s : RtState} {h : Nat} {s' : RtState}
    (hadd : addHeapObject v s = some (h, s')) :
    h % 2 = 0 ∧ s'.slab.get? (h / 2) = some (.full v 1) ∧
      getObject h s' = some v := by
  simp only [addHeapObject] at hadd
  split at hadd
  case h_1 next hget =>
    simp only [Option.some.injEq, Prod.mk.injEq] at hadd
    obtain ⟨hh, hst⟩ := hadd
    set s₁ := if s.slab_next = s.slab.length
              then { s with slab := s.slab ++ [SlabCell.link (s.slab.length + 1)] }
              else s with hs₁
    have hlt : s₁.slab_next < s₁.slab.length :=
      (List.get?_eq_some.mp hget).1
    have hdiv : h / 2 = s₁.slab_next := by omega
    have hmod : h % 2 = 0 := by omega
    refine ⟨hmod, ?_, ?_⟩
    · rw [← hst, hdiv]
      exact List.get?_set_eq_of_lt _ hlt
    · unfold getObject
      rw [if_neg (by omega), ← hst, hdiv]
      rw [List.get?_set_eq_of_lt _ hlt]
  case h_2 =>
    exact absurd hadd (by simp)

/-! ## Claim C3: `cloneRef` promotes stack handles and bumps heap
refcounts in place -/

/-- C3.  The generated `__wbindgen_object_clone_ref` body, applied to an
odd (stack) handle, reads the stack value and re-adds it as a fresh
refcount-1 heap cell, returning a new even (heap) handle under which the
same value is readable; applied to an even (heap) handle whose cell is
occupied, it increments exactly that cell's refcount in place by 1 and
returns the identical handle with the rest of the state unchanged. -/
theorem c3_clone_ref_spec :
    (∀ (s : RtState) (idx : Nat) (v : JsVal) (h' : Nat) (s' : RtState),
      idx % 2 = 1 → getObject idx s = some v →
      cloneRef idx s = some (h', s') →
      h' % 2 = 0 ∧ s'.slab.get? (h' / 2) = some (.full v 1) ∧
        getObject h' s' = some v)
    ∧ (∀ (s : RtState) (idx : Nat) (obj : JsVal) (cnt : Nat),
      idx % 2 = 0 → s.slab.get? (idx / 2) = some (.full obj cnt) →
      cloneRef idx s =
        some (idx, { s with slab := s.slab.set (idx / 2) (.full obj (cnt + 1)) })) := by
  constructor
  · intro s idx v h' s' hodd hget hclone
    unfold cloneRef at hclone
    rw [if_pos hodd, hget] at hclone
    exact addHeapObject_spec hclone
  · intro s idx obj cnt heven hcell
    unfold cloneRef
    rw [if_neg (by omega), hcell]

/-- Witness for C3 at concrete inputs: promoting the stack handle `1`
over state `⟨[], 0, ["a"]⟩` yields the even handle `0` and a fresh
refcount-1 cell, and bumping the heap handle `0` over a slab holding
`"b"` at count 2 returns handle `0` with count 3. -/
theorem c3_clone_ref_witness :
    ((0 : Nat) % 2 = 0
      ∧ (RtState.mk [SlabCell.full (JsVal.str "a") 1] 1 [JsVal.str "a"]).slab.get? 0
          = some (.full (JsVal.str "a") 1)
      ∧ getObject 0 (RtState.mk [SlabCell.full (JsVal.str "a") 1] 1 [JsVal.str "a"])
          = some (JsVal.str "a"))
    ∧ cloneRef 0 (RtState.mk [SlabCell.full (JsVal.str "b") 2] 1 []) =
        some (0, { RtState.mk [SlabCell.full (JsVal.str "b") 2] 1 [] with
                    slab := (RtState.mk [SlabCell.full (JsVal.str "b") 2] 1 []).slab.set 0
                      (.full (JsVal.str "b") (2 + 1)) }) :=
  ⟨c3_clone_ref_spec.1 (RtState.mk [] 0 [JsVal.str "a"]) 1 (JsVal.str "a") 0
      (RtState.mk [SlabCell.full (JsVal.str "a") 1] 1 [JsVal.str "a"])
      (by decide) (by decide) (by decide),
   c3_clone_ref_spec.2 (RtState.mk [SlabCell.full (JsVal.str "b") 2] 1 []) 0
      (JsVal.str "b") 2 (by decide) (by decide)⟩

/-! ## Claim C8: `[String, Number] → Boolean` ABI shape -/

/-- C8.  A function descriptor with arguments `[String, Number]` and
return `Boolean` generates a call site whose ABI actuals are exactly the
string's pointer, the string's length, and the number, in that order
(three values), and whose return conversion is the emitted
`return ret != 0;`, a strict boolean that is `true` exactly on nonzero
ABI words. -/
theorem c8_string_number_boolean_abi :
    (generateFunction false ⟨"foo", [TYPE_STRING, TYPE_NUMBER], some TYPE_BOOLEAN⟩
        cxDefault).map
        (fun r => (r.1.passed_args, r.1.passed_args.length, r.1.convert_ret))
      = some ([.ptr 0, .len 0, .argRaw 1], 3, .retBool)
    ∧ (∀ n : Int, (boolRetDenote n = true ↔ n ≠ 0)
        ∧ (boolRetDenote n = false ↔ n = 0)) := by
  refine ⟨by decide, fun n => ⟨?_, ?_⟩⟩
  · simp [boolRetDenote]
  · simp [boolRetDenote]

theorem importArg_no_exnptr {c : Context} {i a : Nat} {r}
    (h : importArg c i a = some r) : AbiArg.exnptr ∉ r.2.2.1 := by
  unfold importArg at h
  split_ifs at h <;>
    (simp only [Option.some.injEq] at h; subst h; simp)

theorem runImportArgs_no_exnptr {c : Context} {i : Nat} {args : List Nat} {r}
    (h : runImportArgs c i args = some r) : AbiArg.exnptr ∉ r.2.2.1 := by
  induction args generalizing c i r with
  | nil =>
    simp only [runImportArgs, Option.some.injEq] at h
    subst h; simp
  | cons a rest ih =>
    simp only [runImportArgs, Option.bind_eq_bind, Option.bind_eq_some] at h
    obtain ⟨r₁, h₁, r₂, h₃, h₄⟩ := h
    simp only [Option.pure_def, Option.some.injEq] at h₄
    subst h₄
    simp only [List.mem_append]
    push_neg
    exact ⟨importArg_no_exnptr h₁, ih h₃⟩

theorem importRet_no_exnptr {c : Context} {t : Option Nat} {r}
    (h : importRet c t = some r) : AbiArg.exnptr ∉ r.2.1 := by
  rcases t with _ | t
  · simp only [importRet, Option.some.injEq] at h; subst h; simp
  · simp only [importRet] at h
    split_ifs at h <;>
      (simp only [Option.some.injEq] at h; subst h; simp)

/-! ## Claim C2: the `catch` flag appends one `exnptr` out-slot and the
wrapper writes the two-word record only on a throw -/

/-- C2.  The synthesized import shim for a descriptor with `catch=true`
has exactly the ABI argument list of the `catch=false` shim with one
extra `exnptr` out-slot appended at the end (and only then: a
`catch=false` shim never carries `exnptr`).  At runtime, the emitted
`try`/`catch` wrapper leaves the memory view and the slab untouched when
the target call returns, and when the target throws it returns normally
after writing the nonzero status word `1` at `exnptr/4` and a valid
handle to the thrown value at the next word `exnptr/4 + 1`. -/
theorem c2_catch_abi_and_status :
    (∀ (imp : ImportDesc) (c : Context),
      (generateImport { imp with catch_ := true } c).map (fun r => r.1.abi_args)
        = (generateImport { imp with catch_ := false } c).map
            (fun r => r.1.abi_args ++ [.exnptr]))
    ∧ (∀ (imp : ImportDesc) (c : Context) (r : GenImport) (c' : Context),
        imp.catch_ = false → generateImport imp c = some (r, c') →
        AbiArg.exnptr ∉ r.abi_args)
    ∧ (∀ (exnptr : Nat) (view : Nat → Nat) (s : RtState) (v : JsVal),
        catchInvoke exnptr view s (.ok v) = some (view, s))
    ∧ (∀ (exnptr : Nat) (view : Nat → Nat) (s : RtState) (e : JsVal)
        (h : Nat) (s' : RtState),
        addHeapObject e s = some (h, s') →
        ∃ view' : Nat → Nat,
          catchInvoke exnptr view s (.error e) = some (view', s')
          ∧ view' (exnptr / 4) = 1 ∧ view' (exnptr / 4) ≠ 0
          ∧ view' (exnptr / 4 + 1) = h
          ∧ getObject h s' = some e) := by
  refine ⟨?_, ?_, ?_, ?_⟩
  · intro imp c
    unfold generateImport
    rcases h₁ : runImportArgs c 0 imp.function.arguments with _ | ⟨c₁, invoc, abi, extra⟩
    · simp
    · rcases h₂ : importRet c₁ imp.function.ret with _ | ⟨rk, abiRet, c₂⟩
      · simp
      · simp
  · intro imp c r c' hcatch hgen
    unfold generateImport at hgen
    rcases h₁ : runImportArgs c 0 imp.function.arguments with _ | ⟨c₁, invoc, abi, extra⟩
    · rw [h₁] at hgen; exact absurd hgen (by simp)
    · rw [h₁] at hgen
      simp only [Option.bind_eq_bind, Option.some_bind] at hgen
      rcases h₂ : importRet c₁ imp.function.ret with _ | ⟨rk, abiRet, c₂⟩
      · rw [h₂] at hgen; exact absurd hgen (by simp)
      · rw [h₂] at hgen
        simp only [Option.some_bind, hcatch, Bool.false_eq_true, if_false,
          Option.pure_def, Option.some.injEq, Prod.mk.injEq] at hgen
        obtain ⟨hr, _⟩ := hgen
        subst hr
        simp only [List.mem_append]
        push_neg
        exact ⟨runImportArgs_no_exnptr h₁, importRet_no_exnptr h₂⟩
  · intro exnptr view s v
    rfl
  · intro exnptr view s e h s' hadd
    refine ⟨Function.update (Function.update view (exnptr / 4) 1)
        (exnptr / 4 + 1) h, ?_, ?_, ?_, ?_, (addHeapObject_spec hadd).2.2⟩
    · simp only [catchInvoke, hadd]
    · rw [Function.update_noteq (by omega), Function.update_same]
    · rw [Function.update_noteq (by omega), Function.update_same]
      omega
    · rw [Function.update_same]

/-- Witness for C2 at concrete inputs: the no-`exnptr` fact for a
concrete one-number-argument import, and the two-word record for a
throw of `"e"` over the empty slab with `exnptr = 8`. -/
theorem c2_catch_witness :
    AbiArg.exnptr ∉ [AbiArg.arg 0]
    ∧ ∃ view' : Nat → Nat,
        catchInvoke 8 (fun _ => 0) (RtState.mk [] 0 []) (.error (JsVal.str "e"))
          = some (view', RtState.mk [SlabCell.full (JsVal.str "e") 1] 1 [])
        ∧ view' 2 = 1 ∧ view' 2 ≠ 0 ∧ view' 3 = 0
        ∧ getObject 0 (RtState.mk [SlabCell.full (JsVal.str "e") 1] 1 [])
            = some (JsVal.str "e") := by
  constructor
  · exact c2_catch_abi_and_status.2.1
      ⟨none, none, ⟨"g", [TYPE_NUMBER], none⟩, false, false, false⟩ cxDefault
      ⟨[AbiArg.arg 0], [], [InvocArg.raw 0], .plain, false⟩ cxDefault rfl
      (by decide)
  · have h8 := c2_catch_abi_and_status.2.2.2 8 (fun _ => 0)
      (RtState.mk [] 0 []) (JsVal.str "e") 0
      (RtState.mk [SlabCell.full (JsVal.str "e") 1] 1 []) (by decide)
    simpa using h8

theorem or_one_ne_self {d : Nat} (h : d &&& 1 = 0) : d ||| 1 ≠ d := by
  intro heq
  have hm : d % 2 = 0 := by rw [← Nat.and_one_is_mod]; omega
  have h1 : (d ||| 1).testBit 0 = true := by
    rw [Nat.testBit_or]; simp
  rw [heq] at h1
  rw [Nat.testBit_zero] at h1
  simp at h1
  omega

theorem insertNew_some {k : Nat} {v : String} {m m' : List (Nat × String)}
    (h : insertNew k v m = some m') :
    mlookup k m = none ∧ m' = (k, v) :: m := by
  unfold insertNew at h
  rcases h₀ : mlookup k m with _ | w
  · rw [h₀] at h
    simp only [Option.some.injEq] at h
    exact ⟨rfl, h.symm⟩
  · rw [h₀] at h; exact absurd h (by simp)

theorem addOne_eq {m : List (Nat × String)} {cu : CustomTypeName}
    {m₁ : List (Nat × String)} (h : addOneCustomType m cu = some m₁) :
    cu.descriptor &&& 1 = 0
    ∧ mlookup cu.descriptor m = none
    ∧ mlookup (cu.descriptor ||| 1) ((cu.descriptor, cu.name) :: m) = none
    ∧ m₁ = (cu.descriptor ||| 1, cu.name) :: (cu.descriptor, cu.name) :: m := by
  simp only [addOneCustomType, Option.bind_eq_bind, Option.bind_eq_some] at h
  obtain ⟨m₀, h₁, h₂⟩ := h
  obtain ⟨hnone, hm₀⟩ := insertNew_some h₁
  by_cases hflag : cu.descriptor &&& 1 = 0
  · rw [if_pos hflag] at h₂
    obtain ⟨hnone1, hm₁⟩ := insertNew_some h₂
    subst hm₀
    exact ⟨hflag, hnone, hnone1, hm₁⟩
  · rw [if_neg hflag] at h₂
    exact absurd h₂ (by simp)

theorem addOne_none_of_flag {m : List (Nat × String)} {cu : CustomTypeName}
    (hflag : cu.descriptor &&& 1 ≠ 0) : addOneCustomType m cu = none := by
  simp only [addOneCustomType, Option.bind_eq_bind]
  rcases h : insertNew cu.descriptor cu.name m with _ | m₀
  · rfl
  · simp only [Option.some_bind]
    rw [if_neg hflag]

theorem addCTN_preserve {customs : List CustomTypeName}
    {m m' : List (Nat × String)} (h : addCustomTypeNames customs m = some m') :
    ∀ k v, mlookup k m = some v → mlookup k m' = some v := by
  induction customs generalizing m with
  | nil =>
    simp only [addCustomTypeNames, Option.some.injEq] at h
    subst h; exact fun _ _ hk => hk
  | cons cu rest ih =>
    simp only [addCustomTypeNames, Option.bind_eq_bind, Option.bind_eq_some] at h
    obtain ⟨m₁, h₁, h₂⟩ := h
    obtain ⟨hflag, hd, hd1, hm₁⟩ := addOne_eq h₁
    intro k v hk
    refine ih h₂ k v ?_
    subst hm₁
    have hkd : cu.descriptor ≠ k := by
      intro heq; rw [heq] at hd; rw [hd] at hk; exact absurd hk (by simp)
    have hkd1 : cu.descriptor ||| 1 ≠ k := by
      intro heq
      have : mlookup (cu.descriptor ||| 1) m = none := by
        simpa [mlookup, Ne.symm (or_one_ne_self hflag)] using hd1
      rw [heq] at this; rw [this] at hk; exact absurd hk (by simp)
    simpa [mlookup, hkd, hkd1] using hk

theorem addOne_mono {m : List (Nat × String)} {cu : CustomTypeName}
    {m₁ : List (Nat × String)} (h : addOneCustomType m cu = some m₁) :
    ∀ k, (mlookup k m).isSome → (mlookup k m₁).isSome := by
  obtain ⟨_, _, _, hm₁⟩ := addOne_eq h
  subst hm₁
  intro k hk
  by_cases h1 : cu.descriptor ||| 1 = k
  · simp [mlookup, h1]
  · by_cases h2 : cu.descriptor = k
    · simp [mlookup, h1, h2]
    · simpa [mlookup, h1, h2] using hk

/-! ## Claim C4: atomic two-id custom-type registration that never
overwrites -/

/-- C4.  Registering the custom types succeeds only with every by-value
id's flag bit clear, maps each id and its derived by-ref id (`id ||| 1`)
to the same class name in the same registration, and preserves every
pre-existing mapping; registration fails outright (`none`) when a
by-value id has the flag bit set, or when the id — or its derived
counterpart — is already present in the registry. -/
theorem c4_custom_type_registration :
    (∀ (customs : List CustomTypeName) (m m' : List (Nat × String)),
      addCustomTypeNames customs m = some m' →
      (∀ cu ∈ customs,
        cu.descriptor &&& 1 = 0
        ∧ mlookup cu.descriptor m' = some cu.name
        ∧ mlookup (cu.descriptor ||| 1) m' = some cu.name)
      ∧ (∀ k v, mlookup k m = some v → mlookup k m' = some v))
    ∧ (∀ (customs : List CustomTypeName) (m : List (Nat × String))
        (cu : CustomTypeName), cu ∈ customs → cu.descriptor &&& 1 ≠ 0 →
        addCustomTypeNames customs m = none)
    ∧ (∀ (customs : List CustomTypeName) (m : List (Nat × String))
        (cu : CustomTypeName), cu ∈ customs →
        (mlookup cu.descriptor m).isSome →
        addCustomTypeNames customs m = none)
    ∧ (∀ (customs : List CustomTypeName) (m : List (Nat × String))
        (cu : CustomTypeName), cu ∈ customs →
        (mlookup (cu.descriptor ||| 1) m).isSome →
        addCustomTypeNames customs m = none) := by
  refine ⟨?_, ?_, ?_, ?_⟩
  · intro customs
    induction customs with
    | nil => intro m m' h; exact ⟨fun cu hcu => absurd hcu (by simp),
        addCTN_preserve h⟩
    | cons cu₀ rest ih =>
      intro m m' h
      refine ⟨?_, addCTN_preserve h⟩
      simp only [addCustomTypeNames, Option.bind_eq_bind, Option.bind_eq_some] at h
      obtain ⟨m₁, h₁, h₂⟩ := h
      obtain ⟨hflag, hd, hd1, hm₁⟩ := addOne_eq h₁
      intro cu hcu
      rcases List.mem_cons.mp hcu with hhd | htl
      · subst hhd
        refine ⟨hflag, ?_, ?_⟩
        · refine addCTN_preserve h₂ _ _ ?_
          subst hm₁
          simp [mlookup, (or_one_ne_self hflag)]
        · refine addCTN_preserve h₂ _ _ ?_
          subst hm₁
          simp [mlookup]
      · exact (ih m₁ m' h₂).1 cu htl
  · intro customs
    induction customs with
    | nil => intro m cu hcu; exact absurd hcu (by simp)
    | cons cu₀ rest ih =>
      intro m cu hcu hflag
      rcases List.mem_cons.mp hcu with hhd | htl
      · subst hhd
        simp [addCustomTypeNames, addOne_none_of_flag hflag]
      · simp only [addCustomTypeNames, Option.bind_eq_bind]
        rcases h₁ : addOneCustomType m cu₀ with _ | m₁
        · rfl
        · simpa using ih m₁ cu htl hflag
  · intro customs
    induction customs with
    | nil => intro m cu hcu; exact absurd hcu (by simp)
    | cons cu₀ rest ih =>
      intro m cu hcu hsome
      rcases List.mem_cons.mp hcu with hhd | htl
      · subst hhd
        rcases hl : mlookup cu.descriptor m with _ | v
        · rw [hl] at hsome; exact absurd hsome (by simp)
        · simp [addCustomTypeNames, addOneCustomType, insertNew, hl]
      · simp only [addCustomTypeNames, Option.bind_eq_bind]
        rcases h₁ : addOneCustomType m cu₀ with _ | m₁
        · rfl
        · simpa using ih m₁ cu htl (addOne_mono h₁ _ hsome)
  · intro customs
    induction customs with
    | nil => intro m cu hcu; exact absurd hcu (by simp)
    | cons cu₀ rest ih =>
      intro m cu hcu hsome
      rcases List.mem_cons.mp hcu with hhd | htl
      · subst hhd
        rcases hl : mlookup cu.descriptor m with _ | v
        · rcases hl1 : mlookup (cu.descriptor ||| 1) m with _ | w
          · rw [hl1] at hsome; exact absurd hsome (by simp)
          · by_cases hflag : cu.descriptor &&& 1 = 0
            · have hne : cu.descriptor ≠ cu.descriptor ||| 1 :=
                fun heq => (or_one_ne_self hflag) heq.symm
              simp [addCustomTypeNames, addOneCustomType, insertNew, hl,
                hflag, mlookup, hne, hl1]
            · simp [addCustomTypeNames, addOne_none_of_flag hflag]
        · simp [addCustomTypeNames, addOneCustomType, insertNew, hl]
      · simp only [addCustomTypeNames, Option.bind_eq_bind]
        rcases h₁ : addOneCustomType m cu₀ with _ | m₁
        · rfl
        · simpa using ih m₁ cu htl (addOne_mono h₁ _ hsome)

/-- Witness for C4 at concrete inputs: registering id `1024` as `Foo`
into the empty registry maps `1024` and `1025` to `Foo`; registering
`1024` when `1024` (or its derived id `1025`) is already present fails,
as does registering the odd id `1025`. -/
theorem c4_registration_witness :
    ((1024 : Nat) &&& 1 = 0
      ∧ mlookup 1024 [(1025, "Foo"), (1024, "Foo")] = some "Foo"
      ∧ mlookup (1024 ||| 1) [(1025, "Foo"), (1024, "Foo")] = some "Foo")
    ∧ addCustomTypeNames [⟨1024, "Bar"⟩] [(1024, "Foo")] = none
    ∧ addCustomTypeNames [⟨1024, "Bar"⟩] [(1025, "Foo")] = none
    ∧ addCustomTypeNames [⟨1025, "Baz"⟩] [] = none := by
  refine ⟨?_, ?_, ?_, ?_⟩
  · exact ((c4_custom_type_registration.1 [⟨1024, "Foo"⟩] []
      [(1025, "Foo"), (1024, "Foo")] (by decide)).1 ⟨1024, "Foo"⟩
      (by decide))
  · exact c4_custom_type_registration.2.2.1 [⟨1024, "Bar"⟩]
      [(1024, "Foo")] ⟨1024, "Bar"⟩ (by decide) (by decide)
  · exact c4_custom_type_registration.2.2.2 [⟨1024, "Bar"⟩]
      [(1025, "Foo")] ⟨1024, "Bar"⟩ (by decide) (by decide)
  · exact c4_custom_type_registration.2.1 [⟨1025, "Baz"⟩] [] ⟨1025, "Baz"⟩
      (by decide) (by decide)

theorem convertRet_none_of_borrowed {c : Context} {t : Nat}
    (h : t = TYPE_BORROWED_STR ∨ t = TYPE_JS_REF) :
    convertRet c (some t) = none := by
  rcases h with h | h <;> subst h <;>
    simp [convertRet, TYPE_NUMBER, TYPE_BOOLEAN, TYPE_JS_OWNED, TYPE_STRING,
      TYPE_JS_REF, TYPE_BORROWED_STR]

theorem convertRet_none_of_flag {c : Context} {t : Nat}
    (h1 : t ≠ TYPE_NUMBER) (h2 : t ≠ TYPE_BOOLEAN) (h3 : t ≠ TYPE_JS_OWNED)
    (h4 : t ≠ TYPE_STRING) (h5 : t &&& TYPE_CUSTOM_REF_FLAG ≠ 0) :
    convertRet c (some t) = none := by
  simp only [convertRet, if_neg h1, if_neg h2, if_neg h3, if_neg h4]
  by_cases h6 : t = TYPE_JS_REF ∨ t = TYPE_BORROWED_STR
  · rw [if_pos h6]
  · rw [if_neg h6, if_pos h5]

theorem generateFunction_none_of_ret {is_method : Bool} {f : FunctionDesc}
    {c : Context} (h : ∀ c' : Context, convertRet c' f.ret = none) :
    generateFunction is_method f c = none := by
  unfold generateFunction
  rcases h₁ : runArgs c 0 f.arguments with _ | ⟨c₁, p, cv, dt⟩
  · simp
  · simp [h c₁]

/-! ## Claim C7: borrowed / by-ref tags are rejected in return
position -/

/-- C7.  Generation fails outright for any export function descriptor
whose declared return type is a borrowed string, a borrowed host value,
or any custom id carrying the by-ref flag bit; yet the very same tags are
accepted in argument position. -/
theorem c7_borrowed_return_fails :
    (∀ (is_method : Bool) (f : FunctionDesc) (c : Context),
      (f.ret = some TYPE_BORROWED_STR ∨ f.ret = some TYPE_JS_REF) →
      generateFunction is_method f c = none)
    ∧ (∀ (is_method : Bool) (f : FunctionDesc) (c : Context) (t : Nat),
        f.ret = some t → t ≠ TYPE_NUMBER → t ≠ TYPE_BOOLEAN →
        t ≠ TYPE_JS_OWNED → t ≠ TYPE_STRING →
        t &&& TYPE_CUSTOM_REF_FLAG ≠ 0 →
        generateFunction is_method f c = none)
    ∧ (generateFunction false
        ⟨"f", [TYPE_BORROWED_STR, TYPE_JS_REF, 1025], none⟩ cxFoo).isSome
        = true := by
  refine ⟨?_, ?_, by decide⟩
  · intro is_method f c hret
    refine generateFunction_none_of_ret fun c' => ?_
    rcases hret with h | h <;> rw [h]
    · exact convertRet_none_of_borrowed (Or.inl rfl)
    · exact convertRet_none_of_borrowed (Or.inr rfl)
  · intro is_method f c t hret h1 h2 h3 h4 h5
    refine generateFunction_none_of_ret fun c' => ?_
    rw [hret]
    exact convertRet_none_of_flag h1 h2 h3 h4 h5

/-- Witness for C7 at a concrete input: a descriptor returning a borrowed
string fails generation. -/
theorem c7_borrowed_return_witness :
    generateFunction false ⟨"h", [], some TYPE_BORROWED_STR⟩ cxDefault = none :=
  c7_borrowed_return_fails.1 false ⟨"h", [], some TYPE_BORROWED_STR⟩ cxDefault
    (Or.inl rfl)

theorem processArg_dtors {c : Context} {i a : Nat} {r}
    (h : processArg c i a = some r) :
    r.2.2.2 = (if a = TYPE_BORROWED_STR then [Stmt.freeString i]
               else if a = TYPE_JS_REF then [Stmt.stackPop] else []) := by
  unfold processArg at h
  by_cases h1 : a = TYPE_NUMBER
  · rw [if_pos h1] at h
    subst h1
    split_ifs at h <;>
      (simp only [Option.some.injEq] at h; subst h;
       simp [TYPE_NUMBER, TYPE_BORROWED_STR, TYPE_JS_REF])
  · rw [if_neg h1] at h
    by_cases h2 : a = TYPE_BOOLEAN
    · rw [if_pos h2] at h
      subst h2
      split_ifs at h <;>
        (simp only [Option.some.injEq] at h; subst h;
         simp [TYPE_BOOLEAN, TYPE_BORROWED_STR, TYPE_JS_REF])
    · rw [if_neg h2] at h
      by_cases h3 : a = TYPE_BORROWED_STR ∨ a = TYPE_STRING
      · rw [if_pos h3] at h
        by_cases h4 : a = TYPE_BORROWED_STR
        · rw [if_pos h4] at h
          simp only [Option.some.injEq] at h
          subst h
          simp [h4]
        · rw [if_neg h4] at h
          simp only [Option.some.injEq] at h
          subst h
          have h5 : a = TYPE_STRING := by tauto
          subst h5
          simp [TYPE_STRING, TYPE_BORROWED_STR, TYPE_JS_REF]
      · rw [if_neg h3] at h
        have h4 : a ≠ TYPE_BORROWED_STR := fun hh => h3 (Or.inl hh)
        by_cases h5 : a = TYPE_JS_OWNED
        · rw [if_pos h5] at h
          subst h5
          simp only [Option.some.injEq] at h
          subst h
          simp [TYPE_JS_OWNED, TYPE_BORROWED_STR, TYPE_JS_REF]
        · rw [if_neg h5] at h
          by_cases h6 : a = TYPE_JS_REF
          · rw [if_pos h6] at h
            simp only [Option.some.injEq] at h
            subst h
            simp [h4, h6, TYPE_JS_REF, TYPE_BORROWED_STR]
          · rw [if_neg h6] at h
            by_cases h7 : a &&& TYPE_CUSTOM_REF_FLAG ≠ 0
            · rw [if_pos h7] at h
              rcases hl : mlookup a c.custom_type_names with _ | s
              · rw [hl] at h; exact absurd h (by simp)
              · rw [hl] at h
                split_ifs at h <;>
                  (simp only [Option.some.injEq] at h; subst h; simp [h4, h6])
            · rw [if_neg h7] at h
              rcases hl : mlookup a c.custom_type_names with _ | s
              · rw [hl] at h; exact absurd h (by simp)
              · rw [hl] at h
                split_ifs at h <;>
                  (simp only [Option.some.injEq] at h; subst h; simp [h4, h6])

theorem runArgs_dtors {c : Context} {i : Nat} {args : List Nat} {r}
    (h : runArgs c i args = some r) : r.2.2.2 = cleanupSchedule i args := by
  induction args generalizing c i r with
  | nil =>
    simp only [runArgs, Option.some.injEq] at h
    subst h
    rfl
  | cons a rest ih =>
    simp only [runArgs, Option.bind_eq_bind, Option.bind_eq_some] at h
    obtain ⟨r₁, h₁, r₂, h₂, h₃⟩ := h
    simp only [Option.pure_def, Option.some.injEq] at h₃
    subst h₃
    show r₁.2.2.2 ++ r₂.2.2.2 = _
    rw [processArg_dtors h₁, ih h₂]
    rfl

theorem consumePtr_not_in_schedule (k : Nat) :
    ∀ (i : Nat) (args : List Nat), Stmt.consumePtr k ∉ cleanupSchedule i args := by
  intro i args
  induction args generalizing i with
  | nil => simp [cleanupSchedule]
  | cons a rest ih =>
    simp only [cleanupSchedule, List.mem_append]
    push_neg
    refine ⟨?_, ih (i + 1)⟩
    split_ifs <;> simp

/-! ## Claim C1: post-call cleanup and the `try`/`finally` wrap -/

/-- C1 (amended).  For every export function descriptor the post-call
cleanup tracked in `destructors` consists of exactly, in argument order,
the buffer-free of each borrowed-string argument and the stack pop of
each borrowed host-value argument; when nonempty, the call is wrapped in
a `try`/`finally` whose `finally` block holds that cleanup sequence, so
it executes exactly once whether the call completes or fails, success and
failure converging on the same sequence.  The invalidation of a consumed
custom-by-value class pointer is never part of the post-call cleanup
(the source emits it *before* the call among the argument conversions). -/
theorem c1_cleanup_try_finally :
    ∀ (is_method : Bool) (f : FunctionDesc) (c : Context) (g : GenResult)
      (c' : Context), generateFunction is_method f c = some (g, c') →
      g.destructors = cleanupSchedule 0 f.arguments
      ∧ (g.destructors = [] →
          g.body = .plain g.arg_conversions g.passed_args g.convert_ret)
      ∧ (g.destructors ≠ [] →
          g.body = .tryFinally g.arg_conversions g.passed_args g.convert_ret
            g.destructors
          ∧ postCallCleanup g.body .success = g.destructors
          ∧ postCallCleanup g.body .thrown = g.destructors)
      ∧ (∀ i, Stmt.consumePtr i ∉ g.destructors) := by
  intro is_method f c g c' h
  unfold generateFunction at h
  rcases h₁ : runArgs c 0 f.arguments with _ | ⟨c₁, p, cv, dt⟩
  · rw [h₁] at h; exact absurd h (by simp)
  · rw [h₁] at h
    simp only [Option.bind_eq_bind, Option.some_bind] at h
    rcases h₂ : convertRet c₁ f.ret with _ | ⟨rc, c₂⟩
    · rw [h₂] at h; exact absurd h (by simp)
    · rw [h₂] at h
      simp only [Option.some_bind, Option.pure_def, Option.some.injEq,
        Prod.mk.injEq] at h
      obtain ⟨hg, _⟩ := h
      subst hg
      have hdt : dt = cleanupSchedule 0 f.arguments := runArgs_dtors h₁
      refine ⟨hdt, ?_, ?_, ?_⟩
      · intro hnil
        simp only at hnil
        simp [hnil]
      · intro hne
        simp only at hne
        have : dt.isEmpty = false := by
          rcases dt with _ | ⟨x, xs⟩
          · exact absurd rfl hne
          · rfl
        simp only [this, Bool.false_eq_true, if_false]
        exact ⟨trivial, rfl, rfl⟩
      · intro i
        simp only
        rw [hdt]
        exact consumePtr_not_in_schedule i 0 f.arguments

/-- Witness for C1 at a concrete input: a descriptor with one borrowed
string argument schedules exactly its buffer free, and the emitted
`try`/`finally` runs it on the success and failure paths alike. -/
theorem c1_cleanup_witness :
    [Stmt.freeString 0] = cleanupSchedule 0 [TYPE_BORROWED_STR]
    ∧ postCallCleanup (FnBody.tryFinally [Stmt.passString 0]
        [PassedArg.ptr 0, PassedArg.len 0] RetConv.ret [Stmt.freeString 0])
        .success = [Stmt.freeString 0]
    ∧ postCallCleanup (FnBody.tryFinally [Stmt.passString 0]
        [PassedArg.ptr 0, PassedArg.len 0] RetConv.ret [Stmt.freeString 0])
        .thrown = [Stmt.freeString 0] := by
  have h := c1_cleanup_try_finally false ⟨"g", [TYPE_BORROWED_STR], none⟩
    cxDefault _ _ rfl
  exact ⟨h.1, (h.2.2.1 (by decide)).2.1, (h.2.2.1 (by decide)).2.2⟩

/-- Counterexample to C1 as stated: the descriptor `f(CustomByValue 1024)`
has an argument the claim counts as requiring post-call cleanup (a
consumed custom-by-value class pointer), yet the generated glue tracks
*no* destructor for it, leaves the call unwrapped, and performs the
invalidation `const ptr0 = arg0.ptr; arg0.ptr = 0;` before the call,
among the argument conversions — nothing runs after the call completes or
fails. -/
theorem c1_counterexample_consumed_pointer_precall :
    (generateFunction false ⟨"f", [1024], none⟩ cxFoo).map
        (fun r => (r.1.arg_conversions, r.1.destructors, r.1.body))
      = some ([Stmt.consumePtr 0], [],
          FnBody.plain [Stmt.consumePtr 0] [PassedArg.consumedPtr 0] RetConv.ret)
    ∧ postCallCleanup (FnBody.plain [Stmt.consumePtr 0]
        [PassedArg.consumedPtr 0] RetConv.ret) .success = []
    ∧ postCallCleanup (FnBody.plain [Stmt.consumePtr 0]
        [PassedArg.consumedPtr 0] RetConv.ret) .thrown = [] := by
  refine ⟨?_, ?_, ?_⟩ <;> decide

theorem rewriteEntry_matching {rset : List String} {mname : String}
    {e : ImportEntry}
    (h : strStartsWith e.field "__wbindgen" = true ∨ e.field ∈ rset) :
    rewriteEntry rset mname e = ⟨"./" ++ mname, e.field, e.kind⟩ := by
  unfold rewriteEntry
  by_cases h1 : strStartsWith e.field "__wbindgen"
  · simp [h1]
  · rcases h with h | h
    · exact absurd h h1
    · simp [h1, h]

theorem rewriteEntry_nonmatching {rset : List String} {mname : String}
    {e : ImportEntry} (h1 : strStartsWith e.field "__wbindgen" = false)
    (h2 : e.field ∉ rset) : rewriteEntry rset mname e = e := by
  unfold rewriteEntry
  simp [h1, h2]

theorem rewriteEntry_idem {rset : List String} {mname : String}
    (e : ImportEntry) :
    rewriteEntry rset mname (rewriteEntry rset mname e)
      = rewriteEntry rset mname e := by
  unfold rewriteEntry
  by_cases h1 : strStartsWith e.field "__wbindgen"
  · simp [h1]
  · by_cases h2 : e.field ∈ rset
    · simp [h1, h2]
    · simp [h1, h2]

theorem rewrittenSections (rset : List String) (mname : String)
    (req : List String) (m : WModule) :
    (unexportUnused req (rewriteImports rset mname m)).sections
      = m.sections.map
          (fun s => pruneSection req (rewriteSection rset mname s)) := by
  simp [unexportUnused, rewriteImports, List.map_map, Function.comp]

/-! ## Claim C5: the rewrite passes change exactly the matching
entries of the import/export sections -/

/-- C5.  The combined import-rewrite and export-prune pass changes
exactly the matching entries: every import entry whose field carries the
reserved `__wbindgen` prefix or is in the rewrite set is redirected to
`"./" ++ module_name` with its field and other attributes preserved,
every other import entry is untouched, positional order of import entries
is preserved one-for-one; every export entry whose field carries the
prefix and is not required is removed, every other export entry is kept,
the surviving entries forming a sublist (relative order preserved); and
every other section and the section count are unchanged. -/
theorem c5_rewrite_characterization :
    ∀ (rset : List String) (mname : String) (req : List String) (m : WModule),
      ((unexportUnused req (rewriteImports rset mname m)).sections.length
        = m.sections.length)
      ∧ (∀ i payload, m.sections.get? i = some (.other payload) →
          (unexportUnused req (rewriteImports rset mname m)).sections.get? i
            = some (.other payload))
      ∧ (∀ i es, m.sections.get? i = some (.imp es) →
          (unexportUnused req (rewriteImports rset mname m)).sections.get? i
            = some (.imp (es.map (rewriteEntry rset mname)))
          ∧ (es.map (rewriteEntry rset mname)).length = es.length
          ∧ (∀ j e, es.get? j = some e →
              ((strStartsWith e.field "__wbindgen" = true ∨ e.field ∈ rset) →
                (es.map (rewriteEntry rset mname)).get? j
                  = some ⟨"./" ++ mname, e.field, e.kind⟩)
              ∧ (strStartsWith e.field "__wbindgen" = false → e.field ∉ rset →
                (es.map (rewriteEntry rset mname)).get? j = some e)))
      ∧ (∀ i es, m.sections.get? i = some (.exp es) →
          (unexportUnused req (rewriteImports rset mname m)).sections.get? i
            = some (.exp (es.filter (keepExport req)))
          ∧ List.Sublist (es.filter (keepExport req)) es
          ∧ (∀ e, e ∈ es.filter (keepExport req) ↔
              e ∈ es ∧ (strStartsWith e.field "__wbindgen" = false
                        ∨ e.field ∈ req))) := by
  intro rset mname req m
  refine ⟨?_, ?_, ?_, ?_⟩
  · rw [rewrittenSections]
    exact List.length_map _ _
  · intro i payload h
    rw [rewrittenSections, List.get?_map, h]
    rfl
  · intro i es h
    refine ⟨?_, List.length_map _ _, ?_⟩
    · rw [rewrittenSections, List.get?_map, h]
      rfl
    · intro j e he
      constructor
      · intro hmatch
        rw [List.get?_map, he, Option.map_some']
        rw [rewriteEntry_matching hmatch]
      · intro hpre hset
        rw [List.get?_map, he, Option.map_some']
        rw [rewriteEntry_nonmatching hpre hset]
  · intro i es h
    refine ⟨?_, List.filter_sublist es, ?_⟩
    · rw [rewrittenSections, List.get?_map, h]
      rfl
    · intro e
      rw [List.mem_filter]
      unfold keepExport
      constructor
      · rintro ⟨hmem, hkeep⟩
        refine ⟨hmem, ?_⟩
        rcases Bool.or_eq_true _ _ |>.mp hkeep with hl | hr
        · exact Or.inl (by simpa using hl)
        · exact Or.inr (by simpa using hr)
      · rintro ⟨hmem, hl | hr⟩
        · exact ⟨hmem, by simp [hl]⟩
        · exact ⟨hmem, by simp [hr]⟩

/-- Witness for C5 at a concrete module: a prefix-carrying import entry
is redirected with field and kind preserved, a non-matching one is left
alone, a required internal export survives while an unrequired one is
pruned, and the unrelated section is untouched. -/
theorem c5_rewrite_witness :
    ((WModule.mk [.imp [⟨"env", "__wbindgen_throw", 3⟩, ⟨"env", "bar", 5⟩],
        .exp [⟨"__wbindgen_malloc", 0⟩, ⟨"__wbindgen_free", 1⟩, ⟨"go", 2⟩],
        .other 9]).sections.get? 0
        = some (.imp [⟨"env", "__wbindgen_throw", 3⟩, ⟨"env", "bar", 5⟩]) →
      ([(⟨"env", "__wbindgen_throw", 3⟩ : ImportEntry),
        ⟨"env", "bar", 5⟩].map (rewriteEntry [] "mymod")).get? 0
        = some ⟨"./" ++ "mymod", "__wbindgen_throw", 3⟩) ∧
    (unexportUnused ["__wbindgen_malloc"] (rewriteImports [] "mymod"
      (WModule.mk [.imp [⟨"env", "__wbindgen_throw", 3⟩, ⟨"env", "bar", 5⟩],
        .exp [⟨"__wbindgen_malloc", 0⟩, ⟨"__wbindgen_free", 1⟩, ⟨"go", 2⟩],
        .other 9]))).sections.get? 2 = some (.other 9) := by
  constructor
  · intro h
    exact (((c5_rewrite_characterization [] "mymod" ["__wbindgen_malloc"]
      (WModule.mk [.imp [⟨"env", "__wbindgen_throw", 3⟩, ⟨"env", "bar", 5⟩],
        .exp [⟨"__wbindgen_malloc", 0⟩, ⟨"__wbindgen_free", 1⟩, ⟨"go", 2⟩],
        .other 9])).2.2.1 0 _ h).2.2 0 ⟨"env", "__wbindgen_throw", 3⟩
        (by decide)).1 (by decide)
  · exact (c5_rewrite_characterization [] "mymod" ["__wbindgen_malloc"]
      (WModule.mk [.imp [⟨"env", "__wbindgen_throw", 3⟩, ⟨"env", "bar", 5⟩],
        .exp [⟨"__wbindgen_malloc", 0⟩, ⟨"__wbindgen_free", 1⟩, ⟨"go", 2⟩],
        .other 9])).2.1 2 9 (by decide)

/-! ## Claim C6: the rewrite passes are idempotent -/

/-- C6.  Applying the import-rewrite pass, the export-prune pass, or
their composition a second time with the same rewrite set, module name
and required-export set leaves the module exactly as after the first
application. -/
theorem c6_rewrite_idempotent :
    ∀ (rset : List String) (mname : String) (req : List String) (m : WModule),
      rewriteImports rset mname (rewriteImports rset mname m)
        = rewriteImports rset mname m
      ∧ unexportUnused req (unexportUnused req m) = unexportUnused req m
      ∧ unexportUnused req (rewriteImports rset mname
          (unexportUnused req (rewriteImports rset mname m)))
        = unexportUnused req (rewriteImports rset mname m) := by
  intro rset mname req m
  have hsec : ∀ s : WSection,
      rewriteSection rset mname (rewriteSection rset mname s)
        = rewriteSection rset mname s := by
    intro s
    rcases s with es | es | p
    · simp only [rewriteSection, List.map_map]
      congr 1
      exact List.map_congr_left fun e _ => rewriteEntry_idem e
    · rfl
    · rfl
  have hprune : ∀ s : WSection,
      pruneSection req (pruneSection req s) = pruneSection req s := by
    intro s
    rcases s with es | es | p
    · rfl
    · simp only [pruneSection, List.filter_filter]
      congr 1
      exact List.filter_congr fun e _ => by rw [Bool.and_self]
    · rfl
  have hcomm : ∀ s : WSection,
      rewriteSection rset mname (pruneSection req s)
        = pruneSection req (rewriteSection rset mname s) := by
    intro s
    rcases s with es | es | p <;> rfl
  refine ⟨?_, ?_, ?_⟩
  · show WModule.mk _ = WModule.mk _
    simp only [rewriteImports, List.map_map]
    congr 1
    exact List.map_congr_left fun s _ => hsec s
  · show WModule.mk _ = WModule.mk _
    simp only [unexportUnused, List.map_map]
    congr 1
    exact List.map_congr_left fun s _ => hprune s
  · show WModule.mk _ = WModule.mk _
    simp only [unexportUnused, rewriteImports, List.map_map]
    congr 1
    refine List.map_congr_left fun s _ => ?_
    simp only [Function.comp]
    rw [hcomm (rewriteSection rset mname s), hsec s,
      hprune (rewriteSection rset mname s)]

/-! ## Structural lemmas about the `expose_*` materializers -/

theorem onlyExposes_pushG (x : String) : OnlyExposes [x] (pushG (.expose x)) := by
  intro c
  exact ⟨⟨[.expose x], rfl, by simp⟩, rfl, fun s hs => hs⟩

theorem onlyExposes_reqInsert (s : String) : OnlyExposes [] (reqInsert s) := by
  intro c
  exact ⟨⟨[], by simp [reqInsert], by simp⟩, rfl, fun _ hs => hs⟩

theorem onlyExposes_comp {ns ms : List String} {F G : Context → Context}
    (hF : OnlyExposes ns F) (hG : OnlyExposes ms G) :
    OnlyExposes (ns ++ ms) (fun c => G (F c)) := by
  intro c
  obtain ⟨⟨l₁, hl₁, hfr₁⟩, hm₁, he₁⟩ := hF c
  obtain ⟨⟨l₂, hl₂, hfr₂⟩, hm₂, he₂⟩ := hG (F c)
  refine ⟨⟨l₁ ++ l₂, ?_, ?_⟩, ?_, ?_⟩
  · rw [hl₂, hl₁, List.append_assoc]
  · intro fr hfr
    rcases List.mem_append.mp hfr with h | h
    · obtain ⟨nm, hnm, heq⟩ := hfr₁ fr h
      exact ⟨nm, List.mem_append.mpr (Or.inl hnm), heq⟩
    · obtain ⟨nm, hnm, heq⟩ := hfr₂ fr h
      exact ⟨nm, List.mem_append.mpr (Or.inr hnm), heq⟩
  · rw [hm₂, hm₁]
  · intro s hs
    exact he₂ s (he₁ s hs)

theorem onlyExposes_guarded {ns : List String} {body : Context → Context}
    (x : String) (h : OnlyExposes ns body) :
    OnlyExposes ns (guarded x body) := by
  intro c
  unfold guarded
  by_cases hx : x ∈ c.exposed_globals
  · rw [if_pos hx]
    exact ⟨⟨[], by simp, by simp⟩, rfl, fun _ hs => hs⟩
  · rw [if_neg hx]
    obtain ⟨⟨l, hl, hfr⟩, hm, he⟩ :=
      h { c with exposed_globals := x :: c.exposed_globals }
    exact ⟨⟨l, hl, hfr⟩, hm, fun s hs => he s (List.mem_cons_of_mem _ hs)⟩

theorem oe_stack : OnlyExposes ["stack"] expose_global_stack :=
  onlyExposes_guarded _ (onlyExposes_pushG _)

theorem oe_slab : OnlyExposes ["slab"] expose_global_slab :=
  onlyExposes_guarded _ (onlyExposes_pushG _)

theorem oe_slab_next : OnlyExposes ["slab_next"] expose_global_slab_next :=
  onlyExposes_guarded _ (onlyExposes_pushG _)

theorem oe_check_token : OnlyExposes ["check_token"] expose_check_token :=
  onlyExposes_guarded _ (onlyExposes_pushG _)

theorem oe_assert_num : OnlyExposes ["assert_num"] expose_assert_num :=
  onlyExposes_guarded _ (onlyExposes_pushG _)

theorem oe_assert_bool : OnlyExposes ["assert_bool"] expose_assert_bool :=
  onlyExposes_guarded _ (onlyExposes_pushG _)

theorem oe_text_encoder : OnlyExposes ["text_encoder"] expose_text_encoder :=
  onlyExposes_guarded _ (onlyExposes_pushG _)

theorem oe_text_decoder : OnlyExposes ["text_decoder"] expose_text_decoder :=
  onlyExposes_guarded _ (onlyExposes_pushG _)

theorem oe_uint8 : OnlyExposes ["uint8_memory"] expose_uint8_memory :=
  onlyExposes_guarded _ (onlyExposes_pushG _)

theorem oe_uint32 : OnlyExposes ["uint32_memory"] expose_uint32_memory :=
  onlyExposes_guarded _ (onlyExposes_pushG _)

theorem oe_assert_class : OnlyExposes ["assert_class"] expose_assert_class :=
  onlyExposes_guarded _ (onlyExposes_pushG _)

theorem oe_drop_ref :
    OnlyExposes ["slab", "slab_next", "drop_ref"] expose_drop_ref :=
  onlyExposes_guarded _
    (onlyExposes_comp (onlyExposes_comp oe_slab oe_slab_next)
      (onlyExposes_pushG _))

theorem oe_get_object :
    OnlyExposes ["stack", "slab", "get_object"] expose_get_object :=
  onlyExposes_guarded _
    (onlyExposes_comp (onlyExposes_comp oe_stack oe_slab)
      (onlyExposes_pushG _))

theorem oe_borrowed_objects :
    OnlyExposes ["stack", "borrowed_objects"] expose_borrowed_objects :=
  onlyExposes_guarded _
    (onlyExposes_comp oe_stack (onlyExposes_pushG _))

theorem oe_take_object :
    OnlyExposes ["stack", "slab", "get_object", "slab", "slab_next",
      "drop_ref", "take_object"] expose_take_object :=
  onlyExposes_guarded _
    (onlyExposes_comp (onlyExposes_comp oe_get_object oe_drop_ref)
      (onlyExposes_pushG _))

theorem oe_add_heap_object :
    OnlyExposes ["slab", "slab_next", "add_heap_object"] expose_add_heap_object :=
  onlyExposes_guarded _
    (onlyExposes_comp (onlyExposes_comp oe_slab oe_slab_next)
      (onlyExposes_pushG _))

theorem oe_pass_string :
    OnlyExposes ["text_encoder", "uint8_memory", "pass_string_to_wasm"]
      expose_pass_string_to_wasm := by
  refine onlyExposes_guarded _ ?_
  intro c
  by_cases hn : (reqInsert "__wbindgen_malloc" c).nodejs
  · refine ⟨⟨[.expose "pass_string_to_wasm"], ?_, by simp⟩, ?_, ?_⟩
    · show (if (reqInsert "__wbindgen_malloc" c).nodejs
          then pushG (.expose "pass_string_to_wasm")
            (reqInsert "__wbindgen_malloc" c)
          else pushG (.expose "pass_string_to_wasm")
            (expose_uint8_memory (expose_text_encoder
              (reqInsert "__wbindgen_malloc" c)))).globals = _
      rw [if_pos hn]
      rfl
    · show (if (reqInsert "__wbindgen_malloc" c).nodejs
          then pushG (.expose "pass_string_to_wasm")
            (reqInsert "__wbindgen_malloc" c)
          else pushG (.expose "pass_string_to_wasm")
            (expose_uint8_memory (expose_text_encoder
              (reqInsert "__wbindgen_malloc" c)))).module = _
      rw [if_pos hn]
      rfl
    · intro s hs
      show s ∈ (if (reqInsert "__wbindgen_malloc" c).nodejs
          then pushG (.expose "pass_string_to_wasm")
            (reqInsert "__wbindgen_malloc" c)
          else pushG (.expose "pass_string_to_wasm")
            (expose_uint8_memory (expose_text_encoder
              (reqInsert "__wbindgen_malloc" c)))).exposed_globals
      rw [if_pos hn]
      exact hs
  · obtain ⟨⟨l₁, hl₁, hfr₁⟩, hm₁, he₁⟩ :=
      oe_text_encoder (reqInsert "__wbindgen_malloc" c)
    obtain ⟨⟨l₂, hl₂, hfr₂⟩, hm₂, he₂⟩ :=
      oe_uint8 (expose_text_encoder (reqInsert "__wbindgen_malloc" c))
    refine ⟨⟨l₁ ++ l₂ ++ [.expose "pass_string_to_wasm"], ?_, ?_⟩, ?_, ?_⟩
    · show (if (reqInsert "__wbindgen_malloc" c).nodejs
          then pushG (.expose "pass_string_to_wasm")
            (reqInsert "__wbindgen_malloc" c)
          else pushG (.expose "pass_string_to_wasm")
            (expose_uint8_memory (expose_text_encoder
              (reqInsert "__wbindgen_malloc" c)))).globals = _
      rw [if_neg hn]
      show (expose_uint8_memory (expose_text_encoder
            (reqInsert "__wbindgen_malloc" c))).globals
          ++ [Fragment.expose "pass_string_to_wasm"] = _
      rw [hl₂, hl₁]
      show c.globals ++ l₁ ++ l₂ ++ [Fragment.expose "pass_string_to_wasm"] = _
      simp [List.append_assoc]
    · intro fr hfr
      rcases List.mem_append.mp hfr with h12 | hx
      · rcases List.mem_append.mp h12 with h1 | h2
        · obtain ⟨nm, hnm, heq⟩ := hfr₁ fr h1
          simp only [List.mem_singleton] at hnm
          exact ⟨nm, by simp [hnm], heq⟩
        · obtain ⟨nm, hnm, heq⟩ := hfr₂ fr h2
          simp only [List.mem_singleton] at hnm
          exact ⟨nm, by simp [hnm], heq⟩
      · simp only [List.mem_singleton] at hx
        exact ⟨"pass_string_to_wasm", by simp, hx⟩
    · show (if (reqInsert "__wbindgen_malloc" c).nodejs
          then pushG (.expose "pass_string_to_wasm")
            (reqInsert "__wbindgen_malloc" c)
          else pushG (.expose "pass_string_to_wasm")
            (expose_uint8_memory (expose_text_encoder
              (reqInsert "__wbindgen_malloc" c)))).module = _
      rw [if_neg hn]
      show (expose_uint8_memory (expose_text_encoder
            (reqInsert "__wbindgen_malloc" c))).module = _
      rw [hm₂, hm₁]
      rfl
    · intro s hs
      show s ∈ (if (reqInsert "__wbindgen_malloc" c).nodejs
          then pushG (.expose "pass_string_to_wasm")
            (reqInsert "__wbindgen_malloc" c)
          else pushG (.expose "pass_string_to_wasm")
            (expose_uint8_memory (expose_text_encoder
              (reqInsert "__wbindgen_malloc" c)))).exposed_globals
      rw [if_neg hn]
      exact he₂ s (he₁ s hs)

theorem oe_get_string :
    OnlyExposes ["text_decoder", "uint8_memory", "get_string_from_wasm"]
      expose_get_string_from_wasm := by
  refine onlyExposes_guarded _ ?_
  intro c
  by_cases hn : c.nodejs
  · refine ⟨⟨[.expose "get_string_from_wasm"], ?_, by simp⟩, ?_, ?_⟩
    · show (if c.nodejs then pushG (.expose "get_string_from_wasm") c
          else pushG (.expose "get_string_from_wasm")
            (expose_uint8_memory (expose_text_decoder c))).globals = _
      rw [if_pos hn]
      rfl
    · show (if c.nodejs then pushG (.expose "get_string_from_wasm") c
          else pushG (.expose "get_string_from_wasm")
            (expose_uint8_memory (expose_text_decoder c))).module = _
      rw [if_pos hn]
      rfl
    · intro s hs
      show s ∈ (if c.nodejs then pushG (.expose "get_string_from_wasm") c
          else pushG (.expose "get_string_from_wasm")
            (expose_uint8_memory (expose_text_decoder c))).exposed_globals
      rw [if_pos hn]
      exact hs
  · obtain ⟨⟨l₁, hl₁, hfr₁⟩, hm₁, he₁⟩ := oe_text_decoder c
    obtain ⟨⟨l₂, hl₂, hfr₂⟩, hm₂, he₂⟩ := oe_uint8 (expose_text_decoder c)
    refine ⟨⟨l₁ ++ l₂ ++ [.expose "get_string_from_wasm"], ?_, ?_⟩, ?_, ?_⟩
    · show (if c.nodejs then pushG (.expose "get_string_from_wasm") c
          else pushG (.expose "get_string_from_wasm")
            (expose_uint8_memory (expose_text_decoder c))).globals = _
      rw [if_neg hn]
      show (expose_uint8_memory (expose_text_decoder c)).globals
          ++ [Fragment.expose "get_string_from_wasm"] = _
      rw [hl₂, hl₁]
      simp [List.append_assoc]
    · intro fr hfr
      rcases List.mem_append.mp hfr with h12 | hx
      · rcases List.mem_append.mp h12 with h1 | h2
        · obtain ⟨nm, hnm, heq⟩ := hfr₁ fr h1
          simp only [List.mem_singleton] at hnm
          exact ⟨nm, by simp [hnm], heq⟩
        · obtain ⟨nm, hnm, heq⟩ := hfr₂ fr h2
          simp only [List.mem_singleton] at hnm
          exact ⟨nm, by simp [hnm], heq⟩
      · simp only [List.mem_singleton] at hx
        exact ⟨"get_string_from_wasm", by simp, hx⟩
    · show (if c.nodejs then pushG (.expose "get_string_from_wasm") c
          else pushG (.expose "get_string_from_wasm")
            (expose_uint8_memory (expose_text_decoder c))).module = _
      rw [if_neg hn]
      show (expose_uint8_memory (expose_text_decoder c)).module = _
      rw [hm₂, hm₁]
    · intro s hs
      show s ∈ (if c.nodejs then pushG (.expose "get_string_from_wasm") c
          else pushG (.expose "get_string_from_wasm")
            (expose_uint8_memory (expose_text_decoder c))).exposed_globals
      rw [if_neg hn]
      exact he₂ s (he₁ s hs)

theorem guarded_mem {x : String} {body : Context → Context} {c : Context}
    (h : x ∈ c.exposed_globals) : guarded x body c = c := by
  unfold guarded
  rw [if_pos h]

theorem guarded_not_mem {x : String} {body : Context → Context} {c : Context}
    (h : x ∉ c.exposed_globals) :
    guarded x body c = body { c with exposed_globals := x :: c.exposed_globals } := by
  unfold guarded
  rw [if_neg h]

theorem memoized_of_body (x : String) (body : Context → Context)
    (hb : ∀ c, (∃ l, (body c).globals = c.globals ++ l
            ∧ l.count (Fragment.expose x) = 1)
          ∧ (∀ s, s ∈ c.exposed_globals → s ∈ (body c).exposed_globals)) :
    MemoizedExposer x (guarded x body) := by
  intro c
  refine ⟨?_, fun h => guarded_mem h, ?_⟩
  · by_cases h : x ∈ c.exposed_globals
    · rw [guarded_mem h, guarded_mem h]
    · apply guarded_mem
      rw [guarded_not_mem h]
      exact (hb _).2 x (List.mem_cons_self _ _)
  · intro h
    rw [guarded_not_mem h]
    obtain ⟨⟨l, hl, hcount⟩, _⟩ :=
      hb { c with exposed_globals := x :: c.exposed_globals }
    rw [hl]
    show (c.globals ++ l).count _ = _
    rw [List.count_append, hcount]

theorem body_hb_simple (x : String) :
    ∀ c, (∃ l, (pushG (Fragment.expose x) c).globals = c.globals ++ l
            ∧ l.count (Fragment.expose x) = 1)
          ∧ (∀ s, s ∈ c.exposed_globals →
              s ∈ (pushG (Fragment.expose x) c).exposed_globals) :=
  fun _ => ⟨⟨[.expose x], rfl, by simp⟩, fun _ hs => hs⟩

theorem body_hb_of_deps (x : String) {ds : List String}
    (deps : Context → Context) (hd : OnlyExposes ds deps) (hx : x ∉ ds) :
    ∀ c, (∃ l, (pushG (Fragment.expose x) (deps c)).globals = c.globals ++ l
            ∧ l.count (Fragment.expose x) = 1)
          ∧ (∀ s, s ∈ c.exposed_globals →
              s ∈ (pushG (Fragment.expose x) (deps c)).exposed_globals) := by
  intro c
  obtain ⟨⟨l, hl, hfr⟩, _, he⟩ := hd c
  constructor
  · refine ⟨l ++ [.expose x], ?_, ?_⟩
    · show (deps c).globals ++ [Fragment.expose x] = _
      rw [hl, List.append_assoc]
    · rw [List.count_append]
      have h0 : l.count (Fragment.expose x) = 0 := by
        rw [List.count_eq_zero]
        intro hmem
        obtain ⟨nm, hnm, heq⟩ := hfr _ hmem
        have hnmx : nm = x := by
          have := heq
          injection this.symm
        exact hx (hnmx ▸ hnm)
      simp [h0]
  · intro s hs
    exact he s hs

theorem memo_stack : MemoizedExposer "stack" expose_global_stack :=
  memoized_of_body _ _ (body_hb_simple _)

theorem memo_slab : MemoizedExposer "slab" expose_global_slab :=
  memoized_of_body _ _ (body_hb_simple _)

theorem memo_slab_next : MemoizedExposer "slab_next" expose_global_slab_next :=
  memoized_of_body _ _ (body_hb_simple _)

theorem memo_check_token : MemoizedExposer "check_token" expose_check_token :=
  memoized_of_body _ _ (body_hb_simple _)

theorem memo_assert_num : MemoizedExposer "assert_num" expose_assert_num :=
  memoized_of_body _ _ (body_hb_simple _)

theorem memo_assert_bool : MemoizedExposer "assert_bool" expose_assert_bool :=
  memoized_of_body _ _ (body_hb_simple _)

theorem memo_text_encoder : MemoizedExposer "text_encoder" expose_text_encoder :=
  memoized_of_body _ _ (body_hb_simple _)

theorem memo_text_decoder : MemoizedExposer "text_decoder" expose_text_decoder :=
  memoized_of_body _ _ (body_hb_simple _)

theorem memo_uint8 : MemoizedExposer "uint8_memory" expose_uint8_memory :=
  memoized_of_body _ _ (body_hb_simple _)

theorem memo_uint32 : MemoizedExposer "uint32_memory" expose_uint32_memory :=
  memoized_of_body _ _ (body_hb_simple _)

theorem memo_assert_class : MemoizedExposer "assert_class" expose_assert_class :=
  memoized_of_body _ _ (body_hb_simple _)

theorem memo_drop_ref : MemoizedExposer "drop_ref" expose_drop_ref :=
  memoized_of_body _ _
    (body_hb_of_deps _ _ (onlyExposes_comp oe_slab oe_slab_next) (by decide))

theorem memo_get_object : MemoizedExposer "get_object" expose_get_object :=
  memoized_of_body _ _
    (body_hb_of_deps _ _ (onlyExposes_comp oe_stack oe_slab) (by decide))

theorem memo_borrowed_objects :
    MemoizedExposer "borrowed_objects" expose_borrowed_objects :=
  memoized_of_body _ _ (body_hb_of_deps _ _ oe_stack (by decide))

theorem memo_take_object : MemoizedExposer "take_object" expose_take_object :=
  memoized_of_body _ _
    (body_hb_of_deps _ _ (onlyExposes_comp oe_get_object oe_drop_ref)
      (by decide))

theorem memo_add_heap_object :
    MemoizedExposer "add_heap_object" expose_add_heap_object :=
  memoized_of_body _ _
    (body_hb_of_deps _ _ (onlyExposes_comp oe_slab oe_slab_next) (by decide))

theorem body_hb_pass_string :
    ∀ c : Context,
      (∃ l, (if (reqInsert "__wbindgen_malloc" c).nodejs
              then pushG (.expose "pass_string_to_wasm")
                (reqInsert "__wbindgen_malloc" c)
              else pushG (.expose "pass_string_to_wasm")
                (expose_uint8_memory (expose_text_encoder
                  (reqInsert "__wbindgen_malloc" c)))).globals
            = c.globals ++ l
          ∧ l.count (Fragment.expose "pass_string_to_wasm") = 1)
      ∧ (∀ s, s ∈ c.exposed_globals →
          s ∈ (if (reqInsert "__wbindgen_malloc" c).nodejs
              then pushG (.expose "pass_string_to_wasm")
                (reqInsert "__wbindgen_malloc" c)
              else pushG (.expose "pass_string_to_wasm")
                (expose_uint8_memory (expose_text_encoder
                  (reqInsert "__wbindgen_malloc" c)))).exposed_globals) := by
  intro c
  by_cases hn : (reqInsert "__wbindgen_malloc" c).nodejs
  · rw [if_pos hn]
    exact ⟨⟨[.expose "pass_string_to_wasm"], rfl, by simp⟩, fun s hs => hs⟩
  · rw [if_neg hn]
    obtain ⟨⟨l₁, hl₁, hfr₁⟩, _, he₁⟩ :=
      oe_text_encoder (reqInsert "__wbindgen_malloc" c)
    obtain ⟨⟨l₂, hl₂, hfr₂⟩, _, he₂⟩ :=
      oe_uint8 (expose_text_encoder (reqInsert "__wbindgen_malloc" c))
    constructor
    · refine ⟨l₁ ++ l₂ ++ [.expose "pass_string_to_wasm"], ?_, ?_⟩
      · show (expose_uint8_memory (expose_text_encoder
              (reqInsert "__wbindgen_malloc" c))).globals
            ++ [Fragment.expose "pass_string_to_wasm"] = _
        rw [hl₂, hl₁]
        show c.globals ++ l₁ ++ l₂ ++ [Fragment.expose "pass_string_to_wasm"] = _
        simp [List.append_assoc]
      · rw [List.count_append, List.count_append]
        have h₁ : l₁.count (Fragment.expose "pass_string_to_wasm") = 0 := by
          rw [List.count_eq_zero]
          intro hmem
          obtain ⟨nm, hnm, heq⟩ := hfr₁ _ hmem
          simp only [List.mem_singleton] at hnm
          subst hnm
          exact absurd (by injection heq.symm) (by decide)
        have h₂ : l₂.count (Fragment.expose "pass_string_to_wasm") = 0 := by
          rw [List.count_eq_zero]
          intro hmem
          obtain ⟨nm, hnm, heq⟩ := hfr₂ _ hmem
          simp only [List.mem_singleton] at hnm
          subst hnm
          exact absurd (by injection heq.symm) (by decide)
        simp [h₁, h₂]
    · intro s hs
      exact he₂ s (he₁ s hs)

theorem memo_pass_string :
    MemoizedExposer "pass_string_to_wasm" expose_pass_string_to_wasm :=
  memoized_of_body _ _ body_hb_pass_string

theorem body_hb_get_string :
    ∀ c : Context,
      (∃ l, (if c.nodejs then pushG (.expose "get_string_from_wasm") c
              else pushG (.expose "get_string_from_wasm")
                (expose_uint8_memory (expose_text_decoder c))).globals
            = c.globals ++ l
          ∧ l.count (Fragment.expose "get_string_from_wasm") = 1)
      ∧ (∀ s, s ∈ c.exposed_globals →
          s ∈ (if c.nodejs then pushG (.expose "get_string_from_wasm") c
              else pushG (.expose "get_string_from_wasm")
                (expose_uint8_memory (expose_text_decoder c))).exposed_globals) := by
  intro c
  by_cases hn : c.nodejs
  · rw [if_pos hn]
    exact ⟨⟨[.expose "get_string_from_wasm"], rfl, by simp⟩, fun s hs => hs⟩
  · rw [if_neg hn]
    obtain ⟨⟨l₁, hl₁, hfr₁⟩, _, he₁⟩ := oe_text_decoder c
    obtain ⟨⟨l₂, hl₂, hfr₂⟩, _, he₂⟩ := oe_uint8 (expose_text_decoder c)
    constructor
    · refine ⟨l₁ ++ l₂ ++ [.expose "get_string_from_wasm"], ?_, ?_⟩
      · show (expose_uint8_memory (expose_text_decoder c)).globals
            ++ [Fragment.expose "get_string_from_wasm"] = _
        rw [hl₂, hl₁]
        simp [List.append_assoc]
      · rw [List.count_append, List.count_append]
        have h₁ : l₁.count (Fragment.expose "get_string_from_wasm") = 0 := by
          rw [List.count_eq_zero]
          intro hmem
          obtain ⟨nm, hnm, heq⟩ := hfr₁ _ hmem
          simp only [List.mem_singleton] at hnm
          subst hnm
          exact absurd (by injection heq.symm) (by decide)
        have h₂ : l₂.count (Fragment.expose "get_string_from_wasm") = 0 := by
          rw [List.count_eq_zero]
          intro hmem
          obtain ⟨nm, hnm, heq⟩ := hfr₂ _ hmem
          simp only [List.mem_singleton] at hnm
          subst hnm
          exact absurd (by injection heq.symm) (by decide)
        simp [h₁, h₂]
    · intro s hs
      exact he₂ s (he₁ s hs)

theorem memo_get_string :
    MemoizedExposer "get_string_from_wasm" expose_get_string_from_wasm :=
  memoized_of_body _ _ body_hb_get_string

theorem mem_setInsert_self (s : String) (l : List String) :
    s ∈ setInsert s l := by
  unfold setInsert
  by_cases h : s ∈ l
  · rwa [if_pos h]
  · rw [if_neg h]
    exact List.mem_cons_self _ _

theorem guarded_pushG_required (x : String) (fr : Fragment) (c : Context) :
    (guarded x (pushG fr) c).required_internal_exports
      = c.required_internal_exports := by
  unfold guarded pushG
  split <;> rfl

theorem pass_string_records_malloc :
    ∀ c, "pass_string_to_wasm" ∉ c.exposed_globals →
      "__wbindgen_malloc" ∈
        (expose_pass_string_to_wasm c).required_internal_exports := by
  intro c h
  rw [show expose_pass_string_to_wasm c
      = (fun c => if c.nodejs then pushG (.expose "pass_string_to_wasm") c
          else pushG (.expose "pass_string_to_wasm")
            (expose_uint8_memory (expose_text_encoder c)))
          (reqInsert "__wbindgen_malloc"
            { c with exposed_globals := "pass_string_to_wasm" :: c.exposed_globals })
      from guarded_not_mem h]
  beta_reduce
  by_cases hn : (reqInsert "__wbindgen_malloc"
      { c with exposed_globals := "pass_string_to_wasm" :: c.exposed_globals }).nodejs
  · rw [if_pos hn]
    exact mem_setInsert_self _ _
  · rw [if_neg hn]
    show "__wbindgen_malloc" ∈ (expose_uint8_memory (expose_text_encoder
        (reqInsert "__wbindgen_malloc"
          { c with exposed_globals :=
              "pass_string_to_wasm" :: c.exposed_globals }))).required_internal_exports
    rw [show expose_uint8_memory = guarded "uint8_memory"
        (pushG (.expose "uint8_memory")) from rfl]
    rw [guarded_pushG_required]
    rw [show expose_text_encoder = guarded "text_encoder"
        (pushG (.expose "text_encoder")) from rfl]
    rw [guarded_pushG_required]
    exact mem_setInsert_self _ _

/-! ## Claim C9: runtime-support materialization is idempotent and
memoized -/

/-- C9.  Every runtime-support materializer in the catalog — the
globals, the codecs, the slab/stack operations and the assertions — is
idempotent and memoized: a request for an already-recorded name leaves
the whole context unchanged, a second application is a no-op, and a
fresh request appends that routine's body to the accumulated output
exactly once (its transitive prerequisites are materialized alongside);
a fresh request for the string-passing codec also records the
`__wbindgen_malloc` low-level allocator among the required internal
exports. -/
theorem c9_expose_memoized :
    MemoizedExposer "stack" expose_global_stack
    ∧ MemoizedExposer "slab" expose_global_slab
    ∧ MemoizedExposer "slab_next" expose_global_slab_next
    ∧ MemoizedExposer "drop_ref" expose_drop_ref
    ∧ MemoizedExposer "get_object" expose_get_object
    ∧ MemoizedExposer "check_token" expose_check_token
    ∧ MemoizedExposer "assert_num" expose_assert_num
    ∧ MemoizedExposer "assert_bool" expose_assert_bool
    ∧ MemoizedExposer "text_encoder" expose_text_encoder
    ∧ MemoizedExposer "text_decoder" expose_text_decoder
    ∧ MemoizedExposer "uint8_memory" expose_uint8_memory
    ∧ MemoizedExposer "uint32_memory" expose_uint32_memory
    ∧ MemoizedExposer "pass_string_to_wasm" expose_pass_string_to_wasm
    ∧ MemoizedExposer "get_string_from_wasm" expose_get_string_from_wasm
    ∧ MemoizedExposer "assert_class" expose_assert_class
    ∧ MemoizedExposer "borrowed_objects" expose_borrowed_objects
    ∧ MemoizedExposer "take_object" expose_take_object
    ∧ MemoizedExposer "add_heap_object" expose_add_heap_object
    ∧ (∀ c, "pass_string_to_wasm" ∉ c.exposed_globals →
        "__wbindgen_malloc" ∈
          (expose_pass_string_to_wasm c).required_internal_exports) :=
  ⟨memo_stack, memo_slab, memo_slab_next, memo_drop_ref, memo_get_object,
   memo_check_token, memo_assert_num, memo_assert_bool, memo_text_encoder,
   memo_text_decoder, memo_uint8, memo_uint32, memo_pass_string,
   memo_get_string, memo_assert_class, memo_borrowed_objects,
   memo_take_object, memo_add_heap_object, pass_string_records_malloc⟩

/-- Witness for C9 at a concrete context: materializing `addHeapObject`
twice over the empty context equals materializing it once, a fresh
request appends its body exactly once, and a fresh string-codec request
records `__wbindgen_malloc`. -/
theorem c9_expose_witness :
    expose_add_heap_object (expose_add_heap_object cxDefault)
      = expose_add_heap_object cxDefault
    ∧ ((expose_add_heap_object cxDefault).globals).count
        (Fragment.expose "add_heap_object")
      = (cxDefault.globals).count (Fragment.expose "add_heap_object") + 1
    ∧ "__wbindgen_malloc" ∈
        (expose_pass_string_to_wasm cxDefault).required_internal_exports :=
  ⟨(c9_expose_memoized.2.2.2.2.2.2.2.2.2.2.2.2.2.2.2.2.2.1 cxDefault).1,
   (c9_expose_memoized.2.2.2.2.2.2.2.2.2.2.2.2.2.2.2.2.2.1 cxDefault).2.2
     (by decide),
   c9_expose_memoized.2.2.2.2.2.2.2.2.2.2.2.2.2.2.2.2.2.2 cxDefault
     (by decide)⟩

theorem onlyExposes_id : OnlyExposes [] id :=
  fun _ => ⟨⟨[], by simp, by simp⟩, rfl, fun _ h => h⟩

theorem onlyExposes_count_bindGlobal {ns : List String} {F : Context → Context}
    (h : OnlyExposes ns F) (n : String) (c : Context) :
    ((F c).globals).count (Fragment.bindGlobal n)
      = (c.globals).count (Fragment.bindGlobal n) := by
  obtain ⟨⟨l, hl, hfr⟩, _, _⟩ := h c
  rw [hl, List.count_append]
  have h0 : l.count (Fragment.bindGlobal n) = 0 := by
    rw [List.count_eq_zero]
    intro hm
    obtain ⟨nm, _, heq⟩ := hfr _ hm
    exact absurd heq (by simp)
  omega

theorem bindDeps_onlyExposes (nm : String) :
    ∃ ns, OnlyExposes ns (bindDeps nm) := by
  unfold bindDeps
  by_cases h1 : nm = "__wbindgen_object_clone_ref"
  · rw [if_pos h1]
    exact ⟨_, onlyExposes_comp oe_add_heap_object oe_get_object⟩
  rw [if_neg h1]
  by_cases h2 : nm = "__wbindgen_object_drop_ref"
  · rw [if_pos h2]
    exact ⟨_, oe_drop_ref⟩
  rw [if_neg h2]
  by_cases h3 : nm = "__wbindgen_string_new"
  · rw [if_pos h3]
    exact ⟨_, onlyExposes_comp oe_add_heap_object oe_get_string⟩
  rw [if_neg h3]
  by_cases h4 : nm = "__wbindgen_number_new"
  · rw [if_pos h4]
    exact ⟨_, oe_add_heap_object⟩
  rw [if_neg h4]
  by_cases h5 : nm = "__wbindgen_number_get"
  · rw [if_pos h5]
    exact ⟨_, onlyExposes_comp oe_get_object oe_uint8⟩
  rw [if_neg h5]
  by_cases h6 : nm = "__wbindgen_undefined_new"
  · rw [if_pos h6]
    exact ⟨_, oe_add_heap_object⟩
  rw [if_neg h6]
  by_cases h7 : nm = "__wbindgen_null_new"
  · rw [if_pos h7]
    exact ⟨_, oe_add_heap_object⟩
  rw [if_neg h7]
  by_cases h8 : nm = "__wbindgen_is_null"
  · rw [if_pos h8]
    exact ⟨_, oe_get_object⟩
  rw [if_neg h8]
  by_cases h9 : nm = "__wbindgen_is_undefined"
  · rw [if_pos h9]
    exact ⟨_, oe_get_object⟩
  rw [if_neg h9]
  by_cases h10 : nm = "__wbindgen_boolean_new"
  · rw [if_pos h10]
    exact ⟨_, oe_add_heap_object⟩
  rw [if_neg h10]
  by_cases h11 : nm = "__wbindgen_boolean_get"
  · rw [if_pos h11]
    exact ⟨_, oe_get_object⟩
  rw [if_neg h11]
  by_cases h12 : nm = "__wbindgen_symbol_new"
  · rw [if_pos h12]
    exact ⟨_, onlyExposes_comp oe_get_string oe_add_heap_object⟩
  rw [if_neg h12]
  by_cases h13 : nm = "__wbindgen_is_symbol"
  · rw [if_pos h13]
    exact ⟨_, oe_get_object⟩
  rw [if_neg h13]
  by_cases h14 : nm = "__wbindgen_throw"
  · rw [if_pos h14]
    exact ⟨_, oe_get_string⟩
  rw [if_neg h14]
  by_cases h15 : nm = "__wbindgen_string_get"
  · rw [if_pos h15]
    exact ⟨_, onlyExposes_comp (onlyExposes_comp oe_pass_string oe_get_object)
      oe_uint32⟩
  rw [if_neg h15]
  exact ⟨[], onlyExposes_id⟩

theorem bindOne_module (c : Context) (nm : String) :
    (bindOne c nm).module = c.module := by
  unfold bindOne
  split
  · obtain ⟨ns, h⟩ := bindDeps_onlyExposes nm
    show (pushG (Fragment.bindGlobal nm) (bindDeps nm c)).module = c.module
    exact (h c).2.1
  · rfl

theorem bindOne_count_ne {name nm : String} (c : Context) (hne : nm ≠ name) :
    ((bindOne c nm).globals).count (Fragment.bindGlobal name)
      = (c.globals).count (Fragment.bindGlobal name) := by
  unfold bindOne
  split
  · obtain ⟨ns, h⟩ := bindDeps_onlyExposes nm
    show ((bindDeps nm c).globals ++ [Fragment.bindGlobal nm]).count _ = _
    rw [List.count_append, onlyExposes_count_bindGlobal h]
    have h1 : ([Fragment.bindGlobal nm]).count (Fragment.bindGlobal name) = 0 := by
      rw [List.count_eq_zero]
      intro hm
      simp only [List.mem_singleton] at hm
      exact hne (by injection hm.symm)
    omega
  · rfl

theorem bindOne_count_self (c : Context) (name : String) :
    ((bindOne c name).globals).count (Fragment.bindGlobal name)
      = (c.globals).count (Fragment.bindGlobal name)
        + (if wasmImportNeeded c.module name then 1 else 0) := by
  unfold bindOne
  by_cases hw : wasmImportNeeded c.module name
  · rw [if_pos hw, if_pos hw]
    obtain ⟨ns, h⟩ := bindDeps_onlyExposes name
    show ((bindDeps name c).globals ++ [Fragment.bindGlobal name]).count _ = _
    rw [List.count_append, onlyExposes_count_bindGlobal h]
    simp
  · rw [if_neg hw, if_neg hw]
    simp

theorem foldl_bindOne_module (l : List String) (c : Context) :
    (l.foldl bindOne c).module = c.module := by
  induction l generalizing c with
  | nil => rfl
  | cons a rest ih =>
    rw [List.foldl_cons, ih, bindOne_module]

theorem foldl_bindOne_count_notmem {name : String} (l : List String)
    (c : Context) (h : name ∉ l) :
    ((l.foldl bindOne c).globals).count (Fragment.bindGlobal name)
      = (c.globals).count (Fragment.bindGlobal name) := by
  induction l generalizing c with
  | nil => rfl
  | cons a rest ih =>
    rw [List.foldl_cons, ih _ (fun hm => h (List.mem_cons_of_mem _ hm)),
      bindOne_count_ne c
        (fun he => h (List.mem_cons.mpr (Or.inl he.symm)))]

theorem foldl_bindOne_count_mem {name : String} (l : List String)
    (c : Context) (hmem : name ∈ l) (hnd : l.Nodup) :
    ((l.foldl bindOne c).globals).count (Fragment.bindGlobal name)
      = (c.globals).count (Fragment.bindGlobal name)
        + (if wasmImportNeeded c.module name then 1 else 0) := by
  induction l generalizing c with
  | nil => exact absurd hmem (by simp)
  | cons a rest ih =>
    rw [List.foldl_cons]
    by_cases ha : a = name
    · subst ha
      have hnot : a ∉ rest := (List.nodup_cons.mp hnd).1
      rw [foldl_bindOne_count_notmem rest _ hnot, bindOne_count_self]
    · have hrest : name ∈ rest := by
        rcases List.mem_cons.mp hmem with h | h
        · exact absurd h.symm ha
        · exact h
      rw [ih _ hrest (List.nodup_cons.mp hnd).2, bindOne_count_ne c ha,
        bindOne_module]

/-! ## Claim C10: a runtime-support binding is emitted iff the
module imports its name from `"env"` -/

/-- C10.  During finalization each catalog binding `name` is appended
to the glue exactly once when the module's import section has an entry
that imports exactly `name` from the module `"env"`, and not at all
otherwise; `wasm_import_needed` is `false` for a module with no import
section, and over an import section it holds exactly when some entry has
module name `"env"` and field `name`. -/
theorem c10_bind_iff_env_import :
    ∀ (c : Context) (name : String), name ∈ bindNames →
      (((finalizeBinds c).globals).count (Fragment.bindGlobal name)
        = (c.globals).count (Fragment.bindGlobal name)
          + (if wasmImportNeeded c.module name then 1 else 0))
      ∧ (c.module.importSection = none →
          wasmImportNeeded c.module name = false)
      ∧ (∀ es, c.module.importSection = some es →
          (wasmImportNeeded c.module name = true ↔
            ∃ e ∈ es, e.module_ = "env" ∧ e.field = name)) := by
  intro c name hmem
  refine ⟨foldl_bindOne_count_mem _ _ hmem (by decide), ?_, ?_⟩
  · intro h
    unfold wasmImportNeeded
    rw [h]
  · intro es h
    unfold wasmImportNeeded
    rw [h]
    rw [List.any_eq_true]
    constructor
    · rintro ⟨e, hme, hpred⟩
      rw [Bool.and_eq_true] at hpred
      exact ⟨e, hme, by simpa using hpred.1, by simpa using hpred.2⟩
    · rintro ⟨e, hme, h1, h2⟩
      exact ⟨e, hme, by simp [h1, h2]⟩

/-- Witness for C10 at concrete modules: a module importing
`__wbindgen_object_clone_ref` from `"env"` gets that binding emitted
exactly once; the empty module (no import section) needs none; one
that imports the field from `"env2"` does not satisfy the emission
condition. -/
theorem c10_bind_witness :
    ((finalizeBinds { cxDefault with module :=
        ⟨[.imp [⟨"env", "__wbindgen_object_clone_ref", 0⟩]]⟩ }).globals).count
        (Fragment.bindGlobal "__wbindgen_object_clone_ref")
      = (({ cxDefault with module :=
          ⟨[.imp [⟨"env", "__wbindgen_object_clone_ref", 0⟩]]⟩ } :
            Context).globals).count
          (Fragment.bindGlobal "__wbindgen_object_clone_ref")
        + (if wasmImportNeeded
            (WModule.mk [.imp [⟨"env", "__wbindgen_object_clone_ref", 0⟩]])
            "__wbindgen_object_clone_ref" then 1 else 0)
    ∧ wasmImportNeeded cxDefault.module "__wbindgen_object_clone_ref" = false
    ∧ (wasmImportNeeded
        (WModule.mk [.imp [⟨"env2", "__wbindgen_object_clone_ref", 0⟩]])
        "__wbindgen_object_clone_ref" = true ↔
        ∃ e ∈ [(⟨"env2", "__wbindgen_object_clone_ref", 0⟩ : ImportEntry)],
          e.module_ = "env" ∧ e.field = "__wbindgen_object_clone_ref") :=
  ⟨(c10_bind_iff_env_import { cxDefault with module :=
      ⟨[.imp [⟨"env", "__wbindgen_object_clone_ref", 0⟩]]⟩ }
      "__wbindgen_object_clone_ref" (by decide)).1,
   (c10_bind_iff_env_import cxDefault "__wbindgen_object_clone_ref"
      (by decide)).2.1 rfl,
   (c10_bind_iff_env_import { cxDefault with module :=
      ⟨[.imp [⟨"env2", "__wbindgen_object_clone_ref", 0⟩]]⟩ }
      "__wbindgen_object_clone_ref" (by decide)).2.2 _ rfl⟩

end WasmBindgen
